import Mathlib

/-!
Verification of the FNOL claims-intake chatbot.

The repository sources include the React frontend (App.js with handleLogout,
FloatingChatbot.js with the chat turn logic) and the README describing the
19-question catalog.  The backend conversation flow controller (chatbot.py)
is not among the sources, so the FlowController, QuestionCatalog and the
collaborator interfaces are modelled from the specification; client-side
behaviour is embedded directly from the JavaScript sources.
-/

namespace FNOL

/-- Collected answers: mapping from field name to normalized value,
insertion order equals question order (spec section 3, ConversationState). -/
abbrev Answers := List (String × String)

/-- Answer kinds of questions (spec section 3, Question). -/
inductive AnswerKind
  | text
  | yesno
  | options (opts : List String)
deriving DecidableEq

/-- Modelled from the spec: the Question record of the missing backend
catalog (spec section 3): identifier and target field name, prompt text,
answer kind, and a skip predicate over prior answers. -/
structure Question where
  field : String
  prompt : String
  kind : AnswerKind
  askIf : Answers → Bool

/-- Skip predicate that always asks (unconditional questions). -/
def alwaysAsk : Answers → Bool := fun _ => true

/-- Skip predicate: ask only when the given earlier field was answered Yes. -/
def yesAnswered (f : String) (a : Answers) : Bool :=
  List.lookup f a == some "Yes"

/-- Modelled from the spec: the 19-question FNOL catalog of the missing
backend, in README order (Policy Number through Consent); the only
conditional question is Police Report Number, asked only when Police Report
was answered Yes (spec sections 3 and 4.1, README question list). -/
def fnolCatalog : List Question := [
  ⟨"policyNumber", "Please provide your Policy Number.", AnswerKind.text, alwaysAsk⟩,
  ⟨"contactNumber", "Please provide your Contact Number.", AnswerKind.text, alwaysAsk⟩,
  ⟨"incidentDateTime", "When did the incident occur? Please give the date and time.", AnswerKind.text, alwaysAsk⟩,
  ⟨"incidentType", "What type of incident was it?", AnswerKind.options ["Collision", "Theft", "Vandalism", "Fire", "Other"], alwaysAsk⟩,
  ⟨"location", "Where did the incident happen?", AnswerKind.text, alwaysAsk⟩,
  ⟨"weather", "What was the weather like?", AnswerKind.options ["Clear", "Rain", "Snow", "Fog"], alwaysAsk⟩,
  ⟨"policeReport", "Was a police report filed?", AnswerKind.yesno, alwaysAsk⟩,
  ⟨"policeReportNumber", "Please provide the Police Report Number.", AnswerKind.text, yesAnswered "policeReport"⟩,
  ⟨"vehicleDamage", "Please describe the damage to the vehicle.", AnswerKind.text, alwaysAsk⟩,
  ⟨"driveable", "Is the vehicle driveable?", AnswerKind.yesno, alwaysAsk⟩,
  ⟨"towingRequired", "Is towing required?", AnswerKind.yesno, alwaysAsk⟩,
  ⟨"photosTaken", "Were photos taken at the scene?", AnswerKind.yesno, alwaysAsk⟩,
  ⟨"injuries", "Were there any injuries?", AnswerKind.options ["None", "Minor", "Severe"], alwaysAsk⟩,
  ⟨"driverName", "What is the name of the driver?", AnswerKind.text, alwaysAsk⟩,
  ⟨"driverRelation", "What is the relation of the driver to the policyholder?", AnswerKind.options ["Self", "Spouse", "Child", "Other"], alwaysAsk⟩,
  ⟨"driverLicenseNumber", "Please provide the license number of the driver.", AnswerKind.text, alwaysAsk⟩,
  ⟨"drivingExperience", "How much driving experience does the driver have?", AnswerKind.options ["Less than 1 year", "1 to 5 years", "More than 5 years"], alwaysAsk⟩,
  ⟨"driverCondition", "Was the driver in a fit condition to drive?", AnswerKind.yesno, alwaysAsk⟩,
  ⟨"consent", "Do you consent to the processing of this claim?", AnswerKind.yesno, alwaysAsk⟩
]

/-- Conversation modes of the flow controller state machine
(spec section 4.2). -/
inductive Mode
  | idle
  | conversational
  | intake (i : Nat)
  | completedMode
deriving DecidableEq

/-- Per-session conversation state (spec section 3, ConversationState). -/
structure ConvState where
  mode : Mode
  answers : Answers
deriving DecidableEq

/-- The wire contract of one chat turn
(spec section 6, and FloatingChatbot.js reads exactly these fields). -/
structure ChatResponse where
  response : String
  questionType : String
  options : List String
  completed : Bool
deriving DecidableEq

/-- Result of one controller turn: new state, the wire response, which
question (if any) was newly asked, and the record handed to the recorder
(if a save was attempted this turn). -/
structure TurnOut where
  state : ConvState
  resp : ChatResponse
  askedQ : Option Nat
  savedRec : Option Answers

/-- Record a normalized value under a field name in the answer mapping:
update the existing entry, else append (spec section 3: mapping from field
name to normalized answer value, insertion order = question order). -/
def recordAnswer : Answers → String → String → Answers
  | [], f, v => [(f, v)]
  | (g, u) :: tl, f, v =>
      if g == f then (f, v) :: tl else (g, u) :: recordAnswer tl f v

/-- Scan a question list from position i for the first applicable question. -/
def nextApplicableAux (a : Answers) : Nat → List Question → Option (Nat × Question)
  | _, [] => none
  | i, q :: qs => if q.askIf a then some (i, q) else nextApplicableAux a (i + 1) qs

/-- Modelled from the spec: QuestionCatalog.nextApplicable(answers, fromIndex)
of the missing backend returns the next question whose skip predicate is true
scanning forward from fromIndex, or none if exhausted (spec section 4.1). -/
def nextApplicable (a : Answers) (i : Nat) : Option (Nat × Question) :=
  nextApplicableAux a i (fnolCatalog.drop i)

/-- Whether a string is empty or consists only of whitespace characters
(the JavaScript test message.trim() being empty). -/
def isBlank (s : String) : Bool := s.toList.all Char.isWhitespace

/-- Prefix-of-characters test used by the substring check. -/
def leadsWith : List Char → List Char → Bool
  | [], _ => true
  | _ :: _, [] => false
  | p :: ps, c :: cs => p == c && leadsWith ps cs

/-- Substring test on character lists. -/
def hasSub (pat : List Char) : List Char → Bool
  | [] => leadsWith pat []
  | c :: cs => leadsWith pat (c :: cs) || hasSub pat cs

/-- Modelled from the spec: a message signals the claim trigger when it
contains one of the keywords accident, claim, incident
(spec section 4.2, README usage step 5). -/
def containsTrigger (msg : String) : Bool :=
  let l := msg.toList.map Char.toLower
  hasSub "accident".toList l || hasSub "claim".toList l || hasSub "incident".toList l

/-- The question type string of the wire contract for an answer kind
(spec section 6: text, yesno, options). -/
def questionTypeString : AnswerKind → String
  | AnswerKind.text => "text"
  | AnswerKind.yesno => "yesno"
  | AnswerKind.options _ => "options"

/-- The options carried on the wire for an answer kind. -/
def optionsOf : AnswerKind → List String
  | AnswerKind.options opts => opts
  | _ => []

/-- Clarification note prefixed when input could not be understood
(spec section 4.2, Intake failure path). -/
def clarifyNote : String := "Sorry, I did not understand that. "

/-- Response asking (or re-asking) a question, optionally prefixed
by a note. -/
def askResp (note : String) (q : Question) : ChatResponse :=
  ⟨note ++ q.prompt, questionTypeString q.kind, optionsOf q.kind, false⟩

/-- The greeting emitted on first contact and after a reset. -/
def greeting : ChatResponse :=
  ⟨"Hello! How can I help you today?", "text", [], false⟩

/-- Conversational acknowledgment reply (spec section 4.2). -/
def convReply : ChatResponse :=
  ⟨"I am here to help with your insurance needs.", "text", [], false⟩

/-- Completion acknowledgment with the completed flag set. -/
def completionAck : ChatResponse :=
  ⟨"Thank you. Your claim has been submitted.", "text", [], true⟩

/-- Recoverable persistence error response: re-asks the last question so the
save can be retried (spec sections 4.3 and 7, PersistenceFailure). -/
def persistErrorResp (q : Question) : ChatResponse :=
  ⟨"We could not save your claim right now. Please try again. " ++ q.prompt,
   questionTypeString q.kind, optionsOf q.kind, false⟩

/-- Informational note surfaced with the next prompt after the policy
number was entered and the policy lookup found a summary (spec section 4.2
step 3, informational only, does not gate progression). -/
def noteOf (lookupP : String → Option String) (q : Question) (v : String) : String :=
  if q.field == "policyNumber" then
    match lookupP v with
    | some s => s ++ " "
    | none => ""
  else ""

/-- Modelled from the spec: the intake branch of the missing backend
FlowController at question q with index i (spec section 4.2, Intake(i)):
empty or whitespace-only input and normalization failure re-emit the same
prompt with a clarification note and do not advance; a normalized value is
recorded under the field name of the question, then the next applicable
question is asked, or, when none remains, the record is saved, and only if
the save succeeds does the state transition to completed. -/
def intakeStep (norm : AnswerKind → String → Option String)
    (save : Answers → Bool) (lookupP : String → Option String)
    (i : Nat) (a : Answers) (q : Question) (msg : String) : TurnOut :=
  if isBlank msg then ⟨⟨Mode.intake i, a⟩, askResp clarifyNote q, none, none⟩
  else
    match norm q.kind msg with
    | none => ⟨⟨Mode.intake i, a⟩, askResp clarifyNote q, none, none⟩
    | some v =>
        let a2 := recordAnswer a q.field v
        match nextApplicable a2 (i + 1) with
        | some (j, qj) =>
            ⟨⟨Mode.intake j, a2⟩, askResp (noteOf lookupP q v) qj, some j, none⟩
        | none =>
            if save a2 then
              ⟨⟨Mode.completedMode, a2⟩, completionAck, none, some a2⟩
            else
              ⟨⟨Mode.intake i, a2⟩, persistErrorResp q, none, some a2⟩

/-- Modelled from the spec: one turn of the missing backend FlowController
(spec section 4.2).  The controller is parameterized by the external
collaborators: the Normalizer (norm), the ClaimRecorder (save, returning
whether persistence succeeded) and the policy lookup (lookupP, returning an
informational summary).  The claim trigger check happens only in the
conversational mode; the reset sentinel is honored in the completed mode. -/
def processTurn (norm : AnswerKind → String → Option String)
    (save : Answers → Bool) (lookupP : String → Option String)
    (st : ConvState) (msg : String) : TurnOut :=
  match st.mode with
  | Mode.idle => ⟨⟨Mode.conversational, []⟩, greeting, none, none⟩
  | Mode.conversational =>
      if containsTrigger msg then
        match nextApplicable st.answers 0 with
        | some (j, q) => ⟨⟨Mode.intake j, st.answers⟩, askResp "" q, some j, none⟩
        | none => ⟨⟨Mode.conversational, st.answers⟩, convReply, none, none⟩
      else ⟨⟨Mode.conversational, st.answers⟩, convReply, none, none⟩
  | Mode.intake i =>
      match fnolCatalog.get? i with
      | none => ⟨st, convReply, none, none⟩
      | some q => intakeStep norm save lookupP i st.answers q msg
  | Mode.completedMode =>
      if msg == "reset" then ⟨⟨Mode.conversational, []⟩, greeting, none, none⟩
      else ⟨st, completionAck, none, none⟩

/-- Run a sequence of messages through the controller, accumulating the
final state, the list of newly asked question indices, and the records
handed to the recorder. -/
def runTrace (norm : AnswerKind → String → Option String)
    (save : Answers → Bool) (lookupP : String → Option String) :
    ConvState → List String → ConvState × List Nat × List Answers
  | st, [] => (st, [], [])
  | st, m :: ms =>
      let t := processTurn norm save lookupP st m
      let r := runTrace norm save lookupP t.state ms
      (r.1, t.askedQ.toList ++ r.2.1, t.savedRec.toList ++ r.2.2)

/-- A message is a valid answer for the current state: the state is at some
intake question and the message normalizes successfully for it. -/
def stepValid (norm : AnswerKind → String → Option String)
    (st : ConvState) (msg : String) : Bool :=
  match st.mode with
  | Mode.intake i =>
      match fnolCatalog.get? i with
      | some q => !isBlank msg && (norm q.kind msg).isSome
      | none => false
  | _ => false

/-- Every message of the sequence is a valid answer for the state it is
processed in. -/
def validSeq (norm : AnswerKind → String → Option String)
    (save : Answers → Bool) (lookupP : String → Option String) :
    ConvState → List String → Bool
  | _, [] => true
  | st, m :: ms =>
      stepValid norm st m &&
        validSeq norm save lookupP (processTurn norm save lookupP st m).state ms

/-- Whether question index j is applicable given the answers. -/
def askIfIdx (j : Nat) (a : Answers) : Bool :=
  match fnolCatalog.get? j with
  | some q => q.askIf a
  | none => false

/-- The target field name of question index j. -/
def fieldIdx (j : Nat) : String :=
  match fnolCatalog.get? j with
  | some q => q.field
  | none => ""

/-- The applicable question indices of the 19-question catalog, in catalog
order. -/
def applIdx (a : Answers) : List Nat :=
  (List.range 19).filter (fun k => askIfIdx k a)

/-- Invariant shape of the collected answers at intake position i: the
fields collected so far are exactly the applicable questions before i,
in catalog order. -/
def answeredShape (a : Answers) (i : Nat) : Prop :=
  a.map Prod.fst =
    ((List.range 19).filter
      (fun k => askIfIdx k a && decide (k < i))).map fieldIdx

/-- Modelled from the spec: a deterministic stub normalizer as suggested by
spec section 9 (normalize(rawText, expectedKind) with a deterministic stub):
free text is trimmed, yes or no answers map onto Yes and No, a choice must
be one of the enumerated options. -/
def stubNorm : AnswerKind → String → Option String
  | AnswerKind.text, raw => if isBlank raw then none else some raw
  | AnswerKind.yesno, raw =>
      if raw == "Yes" || raw == "yes" then some "Yes"
      else if raw == "No" || raw == "no" then some "No"
      else none
  | AnswerKind.options opts, raw => if opts.contains raw then some raw else none

/-- A concrete sequence of 18 valid answers (police report answered No, so
the police report number is skipped). -/
def msgsNo : List String :=
  ["P1", "5551234", "Jan 5 at 10am", "Collision", "Main Street", "Clear",
   "No", "dented bumper", "Yes", "No", "Yes", "None", "John Smith", "Self",
   "DL12345", "1 to 5 years", "Yes", "Yes"]

/-- A concrete sequence of 19 valid answers (police report answered Yes, so
the police report number is asked). -/
def msgsYes : List String :=
  ["P1", "5551234", "Jan 5 at 10am", "Collision", "Main Street", "Clear",
   "Yes", "PR99", "dented bumper", "Yes", "No", "Yes", "None", "John Smith",
   "Self", "DL12345", "1 to 5 years", "Yes", "Yes"]

/-! Client-side model, embedded from the JavaScript sources. -/

/-- Who produced a transcript message (the type field of the message
objects in FloatingChatbot.js). -/
inductive Sender
  | userMsg
  | botMsg
deriving DecidableEq

/-- One transcript message of the chat window. -/
structure ChatMsg where
  sender : Sender
  text : String
deriving DecidableEq

/-- Whether the last transcript message is a bot message with exactly the
given text (the deduplication condition of FloatingChatbot.js sendMessage,
lines 53 to 59). -/
def lastBotSame (msgs : List ChatMsg) (t : String) : Bool :=
  match msgs.getLast? with
  | some m => m.sender == Sender.botMsg && m.text == t
  | none => false

/-- Append a bot response to the transcript, suppressing it when the last
message is a bot message with identical text (FloatingChatbot.js
sendMessage, setMessages updater). -/
def appendBotDedup (msgs : List ChatMsg) (t : String) : List ChatMsg :=
  if lastBotSame msgs t then msgs else msgs ++ [⟨Sender.botMsg, t⟩]

/-- Transcript effect of one sendMessage call in FloatingChatbot.js: the
guard returns early on empty non-initial input, a non-initial call appends
the user message, a successful response is appended with deduplication,
and a failed request appends an error bot message without deduplication. -/
def clientTurn (msgs : List ChatMsg) (message : String) (isInit : Bool)
    (result : Except String ChatResponse) : List ChatMsg :=
  if !isInit && isBlank message then msgs
  else
    let m1 := if isInit then msgs else msgs ++ [⟨Sender.userMsg, message⟩]
    match result with
    | Except.ok r => appendBotDedup m1 r.response
    | Except.error e => m1 ++ [⟨Sender.botMsg, e⟩]

/-- The transcript has no two consecutive bot messages with equal text. -/
def noDupBot : List ChatMsg → Bool
  | [] => true
  | [_] => true
  | a :: b :: rest =>
      !(a.sender == Sender.botMsg && b.sender == Sender.botMsg && a.text == b.text)
        && noDupBot (b :: rest)

/-- A request posted to the chat endpoint (FloatingChatbot.js, axios.post
body of sendMessage). -/
structure PostedReq where
  message : String
  sessionId : String
deriving DecidableEq

/-- Client component state of FloatingChatbot.js. -/
structure ClientState where
  messages : List ChatMsg
  inputBox : String
  loading : Bool
  completedFlag : Bool
  hasStarted : Bool
deriving DecidableEq

/-- The pre-request phase of sendMessage in FloatingChatbot.js (lines 35
to 49): on non-initial empty-trim input it returns without any state change
or request; otherwise it sets loading, appends the user message and clears
the input box (non-initial only) and posts the request. -/
def sendMessageGuard (sid : String) (st : ClientState) (msg : String)
    (isInit : Bool) : ClientState × Option PostedReq :=
  if !isInit && isBlank msg then (st, none)
  else
    ({ st with
        loading := true,
        messages := if isInit then st.messages else st.messages ++ [⟨Sender.userMsg, msg⟩],
        inputBox := if isInit then st.inputBox else "" },
     some ⟨msg, sid⟩)

/-- handleSubmit of FloatingChatbot.js (lines 86 to 91): sends the input box
content as a non-initial message only when not loading, not completed and
the input has non-empty trim. -/
def handleSubmit (sid : String) (st : ClientState) : ClientState × Option PostedReq :=
  if !st.loading && !st.completedFlag && !isBlank st.inputBox then
    sendMessageGuard sid st st.inputBox false
  else (st, none)

/-- handleStartNew of FloatingChatbot.js (lines 105 to 110): clears the
transcript and flags and sends the literal message reset as an initial
message.  Returns the new state, the message sent and its initial flag. -/
def handleStartNew (st : ClientState) : ClientState × String × Bool :=
  ({ st with messages := [], completedFlag := false, hasStarted := false },
   "reset", true)

/-- The deferred restart performed after a response with completed set
(FloatingChatbot.js lines 64 to 72): clears the transcript and flags and
sends the literal message reset as an initial message. -/
def completedAutoRestart (st : ClientState) : ClientState × String × Bool :=
  ({ st with messages := [], completedFlag := false, hasStarted := false },
   "reset", true)

/-- Rendering decision of the chat input area in FloatingChatbot.js
(lines 174 to 238): yes and no buttons for yesno, a dropdown over the
options for options with a non-empty list, and a text form whose field is
enabled and whose send button is shown only for text. -/
structure RenderSpec where
  yesNoButtons : Bool
  dropdownOpts : Option (List String)
  textForm : Bool
  textFieldEnabled : Bool
  sendButton : Bool
deriving DecidableEq

/-- The input rendering computed by FloatingChatbot.js from the last
questionType and options. -/
def renderInput (questionType : String) (opts : List String) : RenderSpec :=
  { yesNoButtons := questionType == "yesno",
    dropdownOpts := if questionType == "options" && !opts.isEmpty then some opts else none,
    textForm := questionType == "text" || questionType == "yesno",
    textFieldEnabled := questionType == "text",
    sendButton := questionType == "text" }

/-- Application-level client state of App.js. -/
structure AppState where
  sessionId : Option String
  userInfo : Option String
  lsSessionId : Option String
  lsUser : Option String
deriving DecidableEq

/-- Ordered observable steps of handleLogout in App.js. -/
inductive LogoutStep
  | clearLocal
  | postLogout (sid : String)
deriving DecidableEq

/-- handleLogout of App.js (lines 28 to 46): clears the react state and the
localStorage entries first, then fires the backend logout for the previous
session id (when there was one) and ignores any error from it.  The
backend result parameter models the outcome of that call; it does not
influence the resulting local state. -/
def handleLogout (st : AppState) (backendResult : Except String Unit) :
    AppState × List LogoutStep :=
  let cleared : AppState := ⟨none, none, none, none⟩
  let steps :=
    LogoutStep.clearLocal ::
      (match st.sessionId with
       | some sid => [LogoutStep.postLogout sid]
       | none => [])
  match backendResult with
  | Except.ok _ => (cleared, steps)
  | Except.error _ => (cleared, steps)

/-! Helper lemmas about association-list lookup and recordAnswer. -/

theorem lookup_append_some (a rest : Answers) (key w : String)
    (h : List.lookup key a = some w) :
    List.lookup key (a ++ rest) = some w := by
  induction a with
  | nil => simp [List.lookup] at h
  | cons p tl ih =>
      obtain ⟨g, u⟩ := p
      by_cases hg : key = g
      · subst hg
        simp [List.lookup] at h ⊢
        exact h
      · simp [List.lookup, beq_false_of_ne hg] at h ⊢
        exact ih h

theorem lookup_append_of_ne (a : Answers) (key f v : String) (h : key ≠ f) :
    List.lookup key (a ++ [(f, v)]) = List.lookup key a := by
  induction a with
  | nil => simp [List.lookup, beq_false_of_ne h]
  | cons p tl ih =>
      obtain ⟨g, u⟩ := p
      by_cases hg : key = g
      · subst hg
        simp [List.lookup]
      · simp [List.lookup, beq_false_of_ne hg]
        exact ih

theorem lookup_eq_none_of_not_mem (a : Answers) (key : String)
    (h : key ∉ a.map Prod.fst) : List.lookup key a = none := by
  induction a with
  | nil => simp [List.lookup]
  | cons p tl ih =>
      obtain ⟨g, u⟩ := p
      have h1 : key ≠ g := by
        intro he
        exact h (by rw [List.map_cons, he]; exact List.mem_cons_self g _)
      have h2 : key ∉ tl.map Prod.fst := by
        intro hm
        exact h (by rw [List.map_cons]; exact List.mem_cons_of_mem _ hm)
      simp only [List.lookup, beq_false_of_ne h1]
      exact ih h2

theorem lookup_append_self (a : Answers) (f v : String)
    (h : List.lookup f a = none) :
    List.lookup f (a ++ [(f, v)]) = some v := by
  induction a with
  | nil => simp [List.lookup]
  | cons p tl ih =>
      obtain ⟨g, u⟩ := p
      by_cases hg : f = g
      · subst hg
        simp [List.lookup] at h
      · simp only [List.cons_append, List.lookup, beq_false_of_ne hg] at h ⊢
        exact ih h

theorem recordAnswer_fresh (a : Answers) (f v : String)
    (h : f ∉ a.map Prod.fst) : recordAnswer a f v = a ++ [(f, v)] := by
  induction a with
  | nil => rfl
  | cons p tl ih =>
      obtain ⟨g, u⟩ := p
      have h1 : f ≠ g := by
        intro he
        exact h (by rw [List.map_cons, he]; exact List.mem_cons_self g _)
      have h2 : f ∉ tl.map Prod.fst := by
        intro hm
        exact h (by rw [List.map_cons]; exact List.mem_cons_of_mem _ hm)
      have hg : g ≠ f := fun he => h1 he.symm
      simp only [recordAnswer, beq_false_of_ne hg, List.cons_append]
      simp [ih h2]

theorem lookup_recordAnswer_self (a : Answers) (f v : String) :
    List.lookup f (recordAnswer a f v) = some v := by
  induction a with
  | nil => simp [recordAnswer, List.lookup]
  | cons p tl ih =>
      obtain ⟨g, u⟩ := p
      by_cases hg : g = f
      · subst hg
        simp [recordAnswer, List.lookup]
      · have hfg : f ≠ g := fun he => hg he.symm
        simp only [recordAnswer, beq_false_of_ne hg, if_false, List.lookup,
          beq_false_of_ne hfg]
        exact ih

theorem lookup_recordAnswer_ne (a : Answers) (f f2 v : String) (h : f2 ≠ f) :
    List.lookup f2 (recordAnswer a f v) = List.lookup f2 a := by
  induction a with
  | nil => simp [recordAnswer, List.lookup, beq_false_of_ne h]
  | cons p tl ih =>
      obtain ⟨g, u⟩ := p
      by_cases hg : g = f
      · subst hg
        simp [recordAnswer, List.lookup, beq_false_of_ne h]
      · by_cases h2g : f2 = g
        · subst h2g
          simp [recordAnswer, beq_false_of_ne hg, List.lookup]
        · simp only [recordAnswer, beq_false_of_ne hg, if_false, List.lookup,
            beq_false_of_ne h2g]
          exact ih

/-! Concrete facts about the catalog predicates and fields. -/

theorem fnolCatalog_length : fnolCatalog.length = 19 := rfl

theorem askIfIdx_ge (j : Nat) (x : Answers) (h : 19 ≤ j) :
    askIfIdx j x = false := by
  unfold askIfIdx
  rw [List.get?_eq_none.mpr (by rw [fnolCatalog_length]; exact h)]

theorem askIfIdx_const (m : Nat) (x : Answers) (hm : m ≠ 7) :
    askIfIdx m x = decide (m < 19) := by
  by_cases h : m < 19
  · interval_cases m <;> simp_all [askIfIdx, fnolCatalog, alwaysAsk]
  · rw [askIfIdx_ge m x (by omega)]
    simp [h]

theorem askIfIdx_seven (x : Answers) :
    askIfIdx 7 x = (List.lookup "policeReport" x == some "Yes") := rfl

theorem fieldIdx_inj :
    ∀ j < 19, ∀ k < 19, fieldIdx j = fieldIdx k → j = k := by decide

theorem fieldIdx_six : fieldIdx 6 = "policeReport" := rfl

theorem fieldIdx_seven : fieldIdx 7 = "policeReportNumber" := rfl

theorem askIfIdx_append_of_ne_seven (k : Nat) (a e : Answers) (hk : k ≠ 7) :
    askIfIdx k (a ++ e) = askIfIdx k a := by
  rw [askIfIdx_const k (a ++ e) hk, askIfIdx_const k a hk]

theorem askIfIdx_seven_append_ne (a : Answers) (f v : String)
    (h : f ≠ "policeReport") :
    askIfIdx 7 (a ++ [(f, v)]) = askIfIdx 7 a := by
  rw [askIfIdx_seven, askIfIdx_seven,
    lookup_append_of_ne a "policeReport" f v (fun he => h he.symm)]

theorem askIfIdx_seven_of_lookup (a b : Answers)
    (h : List.lookup "policeReport" a = List.lookup "policeReport" b) :
    askIfIdx 7 a = askIfIdx 7 b := by
  rw [askIfIdx_seven, askIfIdx_seven, h]

theorem ask_self_append (i : Nat) (a : Answers) (v : String) (hi : i < 19) :
    askIfIdx i (a ++ [(fieldIdx i, v)]) = askIfIdx i a := by
  by_cases h7 : i = 7
  · subst h7
    exact askIfIdx_seven_append_ne a _ v (by rw [fieldIdx_seven]; decide)
  · exact askIfIdx_append_of_ne_seven i a _ h7

theorem ask_lt_append (k i : Nat) (a : Answers) (v : String)
    (hk : k < i) (hi : i < 19) :
    askIfIdx k (a ++ [(fieldIdx i, v)]) = askIfIdx k a := by
  by_cases h7 : k = 7
  · subst h7
    apply askIfIdx_seven_append_ne
    intro heq
    have h6 : fieldIdx i = fieldIdx 6 := by rw [heq, fieldIdx_six]
    have := fieldIdx_inj i hi 6 (by omega) h6
    omega
  · exact askIfIdx_append_of_ne_seven k a _ h7

/-! Specification of nextApplicable. -/

theorem nextApplicableAux_none (a : Answers) :
    ∀ (qs : List Question) (i : Nat), nextApplicableAux a i qs = none →
      ∀ k q, qs.get? k = some q → q.askIf a = false := by
  intro qs
  induction qs with
  | nil => intro i _ k q hk; simp at hk
  | cons q0 qs ih =>
      intro i h k q hk
      by_cases h0 : q0.askIf a = true
      · simp [nextApplicableAux, h0] at h
      · cases k with
        | zero =>
            simp only [List.get?] at hk
            injection hk with hk
            subst hk
            simp at h0
            exact h0
        | succ k =>
            simp [nextApplicableAux, h0] at h
            simp only [List.get?] at hk
            exact ih (i + 1) h k q hk

theorem nextApplicableAux_some (a : Answers) :
    ∀ (qs : List Question) (i j : Nat) (q : Question),
      nextApplicableAux a i qs = some (j, q) →
      i ≤ j ∧ j - i < qs.length ∧ qs.get? (j - i) = some q ∧
        q.askIf a = true ∧
        ∀ k qq, k < j - i → qs.get? k = some qq → qq.askIf a = false := by
  intro qs
  induction qs with
  | nil => intro i j q h; simp [nextApplicableAux] at h
  | cons q0 qs ih =>
      intro i j q h
      by_cases h0 : q0.askIf a = true
      · simp [nextApplicableAux, h0] at h
        obtain ⟨hj, hq⟩ := h
        subst hj
        subst hq
        refine ⟨Nat.le_refl i, by simp, by simp, h0, ?_⟩
        intro k qq hk
        omega
      · simp [nextApplicableAux, h0] at h
        obtain ⟨h1, h2, h3, h4, h5⟩ := ih (i + 1) j q h
        have hij : i + 1 ≤ j := h1
        refine ⟨by omega, by simp; omega, ?_, h4, ?_⟩
        · have : j - i = (j - (i + 1)) + 1 := by omega
          rw [this]
          simpa using h3
        · intro k qq hk hget
          cases k with
          | zero =>
              simp only [List.get?] at hget
              injection hget with hget
              subst hget
              simp at h0
              exact h0
          | succ k =>
              simp only [List.get?] at hget
              exact h5 k qq (by omega) hget

theorem nextApplicable_some (a : Answers) (i j : Nat) (q : Question)
    (h : nextApplicable a i = some (j, q)) :
    i ≤ j ∧ j < 19 ∧ fnolCatalog.get? j = some q ∧ askIfIdx j a = true ∧
      ∀ k, i ≤ k → k < j → askIfIdx k a = false := by
  unfold nextApplicable at h
  obtain ⟨h1, h2, h3, h4, h5⟩ := nextApplicableAux_some a _ i j q h
  rw [List.length_drop, fnolCatalog_length] at h2
  have hj19 : j < 19 := by omega
  rw [List.get?_drop] at h3
  have hij : i + (j - i) = j := by omega
  rw [hij] at h3
  refine ⟨h1, hj19, h3, ?_, ?_⟩
  · unfold askIfIdx
    rw [h3]
    exact h4
  · intro k hik hkj
    have hk19 : k < 19 := by omega
    have hkl : k < fnolCatalog.length := by rw [fnolCatalog_length]; exact hk19
    obtain ⟨qq, hqq⟩ : ∃ qq, fnolCatalog.get? k = some qq :=
      ⟨fnolCatalog.get ⟨k, hkl⟩, List.get?_eq_get hkl⟩
    have hdrop : (fnolCatalog.drop i).get? (k - i) = some qq := by
      rw [List.get?_drop]
      have hik2 : i + (k - i) = k := by omega
      rw [hik2]
      exact hqq
    have := h5 (k - i) qq (by omega) hdrop
    unfold askIfIdx
    rw [hqq]
    exact this

theorem nextApplicable_none (a : Answers) (i : Nat)
    (h : nextApplicable a i = none) :
    ∀ k, i ≤ k → askIfIdx k a = false := by
  intro k hik
  by_cases hk19 : k < 19
  · have hkl : k < fnolCatalog.length := by rw [fnolCatalog_length]; exact hk19
    obtain ⟨qq, hqq⟩ : ∃ qq, fnolCatalog.get? k = some qq :=
      ⟨fnolCatalog.get ⟨k, hkl⟩, List.get?_eq_get hkl⟩
    have hdrop : (fnolCatalog.drop i).get? (k - i) = some qq := by
      rw [List.get?_drop]
      have hik2 : i + (k - i) = k := by omega
      rw [hik2]
      exact hqq
    have := nextApplicableAux_none a _ i h (k - i) qq hdrop
    unfold askIfIdx
    rw [hqq]
    exact this
  · exact askIfIdx_ge k a (by omega)

/-! Splitting lemmas for filters over List.range. -/

theorem filter_singleton_true (p : Nat -> Bool) (a : Nat) (h : p a = true) :
    List.filter p [a] = [a] := by
  simp [List.filter_cons, h]

theorem filter_singleton_false (p : Nat -> Bool) (a : Nat) (h : p a = false) :
    List.filter p [a] = [] := by
  simp [List.filter_cons, h]

theorem filter_range_between (i j : Nat) (p pOld : Nat -> Bool) (hij : i < j)
    (hi : p i = true) (hlt : forall k, k < i -> p k = pOld k)
    (hmid : forall k, i < k -> k < j -> p k = false) :
    forall n, i < n ->
      (List.range n).filter (fun k => p k && decide (k < j)) =
        (List.range n).filter (fun k => pOld k && decide (k < i)) ++ [i] := by
  intro n
  induction n with
  | zero => intro h; omega
  | succ n ih =>
      intro hin
      by_cases hin2 : i = n
      · subst hin2
        rw [List.range_succ, List.filter_append, List.filter_append]
        have e1 : (List.range i).filter (fun k => p k && decide (k < j)) =
            (List.range i).filter pOld := by
          apply List.filter_congr
          intro k hk
          rw [List.mem_range] at hk
          rw [hlt k hk, decide_eq_true (show k < j by omega), Bool.and_true]
        have e2 : (List.range i).filter (fun k => pOld k && decide (k < i)) =
            (List.range i).filter pOld := by
          apply List.filter_congr
          intro k hk
          rw [List.mem_range] at hk
          rw [decide_eq_true hk, Bool.and_true]
        rw [e1, e2,
          filter_singleton_true _ i (by rw [hi, decide_eq_true hij]; rfl),
          filter_singleton_false _ i
            (by rw [decide_eq_false (show ¬i < i by omega), Bool.and_false])]
        simp
      · have hin3 : i < n := by omega
        rw [List.range_succ, List.filter_append, List.filter_append]
        have e1 : List.filter (fun k => p k && decide (k < j)) [n] = [] := by
          by_cases hnj : n < j
          · exact filter_singleton_false _ n
              (by rw [hmid n (by omega) hnj, Bool.false_and])
          · exact filter_singleton_false _ n
              (by rw [decide_eq_false hnj, Bool.and_false])
        have e2 : List.filter (fun k => pOld k && decide (k < i)) [n] = [] := by
          exact filter_singleton_false _ n
            (by rw [decide_eq_false (show ¬n < i by omega), Bool.and_false])
        rw [e1, e2, ih hin3]
        simp

theorem filter_range_lb (i j : Nat) (p : Nat -> Bool) (hij : i < j)
    (hj : p j = true) (hmid : forall k, i < k -> k < j -> p k = false) :
    forall n, j < n ->
      (List.range n).filter (fun k => p k && decide (i < k)) =
        j :: (List.range n).filter (fun k => p k && decide (j < k)) := by
  intro n
  induction n with
  | zero => intro h; omega
  | succ n ih =>
      intro hjn
      by_cases hjn2 : j = n
      · subst hjn2
        rw [List.range_succ, List.filter_append, List.filter_append]
        have e1 : (List.range j).filter (fun k => p k && decide (i < k)) = [] := by
          rw [List.filter_eq_nil_iff]
          intro k hk
          rw [List.mem_range] at hk
          by_cases hki : i < k
          · rw [hmid k hki hk, Bool.false_and]
            simp
          · rw [decide_eq_false hki, Bool.and_false]
            simp
        have e2 : (List.range j).filter (fun k => p k && decide (j < k)) = [] := by
          rw [List.filter_eq_nil_iff]
          intro k hk
          rw [List.mem_range] at hk
          rw [decide_eq_false (show ¬j < k by omega), Bool.and_false]
          simp
        rw [e1, e2,
          filter_singleton_true _ j (by rw [hj, decide_eq_true hij]; rfl),
          filter_singleton_false _ j
            (by rw [decide_eq_false (show ¬j < j by omega), Bool.and_false])]
        simp
      · have hjn3 : j < n := by omega
        rw [List.range_succ, List.filter_append, List.filter_append, ih hjn3]
        have e3 : List.filter (fun k => p k && decide (i < k)) [n] =
            List.filter (fun k => p k && decide (j < k)) [n] := by
          cases hpn : p n with
          | true =>
              rw [filter_singleton_true _ n
                    (by show (p n && decide (i < n)) = true
                        rw [hpn, decide_eq_true (show i < n by omega)]; rfl),
                  filter_singleton_true _ n
                    (by show (p n && decide (j < n)) = true
                        rw [hpn, decide_eq_true (show j < n by omega)]; rfl)]
          | false =>
              rw [filter_singleton_false _ n
                    (by show (p n && decide (i < n)) = false
                        rw [hpn, Bool.false_and]),
                  filter_singleton_false _ n
                    (by show (p n && decide (j < n)) = false
                        rw [hpn, Bool.false_and])]
        rw [e3]
        simp

theorem filter_range_head (p : Nat -> Bool) (h0 : p 0 = true) :
    forall n, 0 < n ->
      (List.range n).filter p =
        0 :: (List.range n).filter (fun k => p k && decide (0 < k)) := by
  intro n
  induction n with
  | zero => intro h; omega
  | succ n ih =>
      intro _
      by_cases hn : n = 0
      · subst hn
        rw [List.range_succ]
        simp [List.filter_cons, h0]
      · rw [List.range_succ, List.filter_append, List.filter_append,
          ih (by omega)]
        have e : List.filter (fun k => p k && decide (0 < k)) [n] =
            List.filter p [n] := by
          cases hpn : p n with
          | true =>
              rw [filter_singleton_true _ n
                    (by show (p n && decide (0 < n)) = true
                        rw [hpn, decide_eq_true (show 0 < n by omega)]; rfl),
                  filter_singleton_true _ n hpn]
          | false =>
              rw [filter_singleton_false _ n
                    (by show (p n && decide (0 < n)) = false
                        rw [hpn, Bool.false_and]),
                  filter_singleton_false _ n hpn]
        rw [e]
        simp

/-! Step characterization lemmas for the controller. -/

theorem processTurn_intake (norm : AnswerKind → String → Option String)
    (save : Answers → Bool) (lookupP : String → Option String)
    (i : Nat) (a : Answers) (q : Question) (msg : String)
    (hq : fnolCatalog.get? i = some q) :
    processTurn norm save lookupP ⟨Mode.intake i, a⟩ msg =
      intakeStep norm save lookupP i a q msg := by
  simp only [processTurn, hq]

theorem intakeStep_fail (norm : AnswerKind → String → Option String)
    (save : Answers → Bool) (lookupP : String → Option String)
    (i : Nat) (a : Answers) (q : Question) (msg : String)
    (h : isBlank msg = true ∨ norm q.kind msg = none) :
    intakeStep norm save lookupP i a q msg =
      ⟨⟨Mode.intake i, a⟩, askResp clarifyNote q, none, none⟩ := by
  rcases h with h | h
  · simp [intakeStep, h]
  · by_cases ht : isBlank msg = true
    · simp [intakeStep, ht]
    · simp [intakeStep, ht, h]

theorem intakeStep_advance (norm : AnswerKind → String → Option String)
    (save : Answers → Bool) (lookupP : String → Option String)
    (i : Nat) (a : Answers) (q : Question) (msg v : String)
    (j : Nat) (qj : Question)
    (ht : isBlank msg = false) (hv : norm q.kind msg = some v)
    (hn : nextApplicable (recordAnswer a q.field v) (i + 1) = some (j, qj)) :
    intakeStep norm save lookupP i a q msg =
      ⟨⟨Mode.intake j, recordAnswer a q.field v⟩,
        askResp (noteOf lookupP q v) qj, some j, none⟩ := by
  simp [intakeStep, ht, hv, hn]

theorem intakeStep_complete (norm : AnswerKind → String → Option String)
    (save : Answers → Bool) (lookupP : String → Option String)
    (i : Nat) (a : Answers) (q : Question) (msg v : String)
    (ht : isBlank msg = false) (hv : norm q.kind msg = some v)
    (hn : nextApplicable (recordAnswer a q.field v) (i + 1) = none)
    (hs : save (recordAnswer a q.field v) = true) :
    intakeStep norm save lookupP i a q msg =
      ⟨⟨Mode.completedMode, recordAnswer a q.field v⟩, completionAck, none,
        some (recordAnswer a q.field v)⟩ := by
  simp [intakeStep, ht, hv, hn, hs]

theorem intakeStep_saveFail (norm : AnswerKind → String → Option String)
    (save : Answers → Bool) (lookupP : String → Option String)
    (i : Nat) (a : Answers) (q : Question) (msg v : String)
    (ht : isBlank msg = false) (hv : norm q.kind msg = some v)
    (hn : nextApplicable (recordAnswer a q.field v) (i + 1) = none)
    (hs : save (recordAnswer a q.field v) = false) :
    intakeStep norm save lookupP i a q msg =
      ⟨⟨Mode.intake i, recordAnswer a q.field v⟩, persistErrorResp q, none,
        some (recordAnswer a q.field v)⟩ := by
  simp [intakeStep, ht, hv, hn, hs]

theorem processTurn_conv_trigger (norm : AnswerKind → String → Option String)
    (save : Answers → Bool) (lookupP : String → Option String)
    (a : Answers) (msg : String) (j : Nat) (q : Question)
    (htrig : containsTrigger msg = true)
    (hn : nextApplicable a 0 = some (j, q)) :
    processTurn norm save lookupP ⟨Mode.conversational, a⟩ msg =
      ⟨⟨Mode.intake j, a⟩, askResp "" q, some j, none⟩ := by
  simp [processTurn, htrig, hn]

theorem processTurn_completed_reset (norm : AnswerKind → String → Option String)
    (save : Answers → Bool) (lookupP : String → Option String) (a : Answers) :
    processTurn norm save lookupP ⟨Mode.completedMode, a⟩ "reset" =
      ⟨⟨Mode.conversational, []⟩, greeting, none, none⟩ := by
  simp [processTurn]

theorem processTurn_completed_other (norm : AnswerKind → String → Option String)
    (save : Answers → Bool) (lookupP : String → Option String)
    (a : Answers) (msg : String) (h : (msg == "reset") = false) :
    processTurn norm save lookupP ⟨Mode.completedMode, a⟩ msg =
      ⟨⟨Mode.completedMode, a⟩, completionAck, none, none⟩ := by
  simp [processTurn, h]

theorem runTrace_nil (norm : AnswerKind → String → Option String)
    (save : Answers → Bool) (lookupP : String → Option String)
    (st : ConvState) : runTrace norm save lookupP st [] = (st, [], []) := rfl

theorem runTrace_cons (norm : AnswerKind → String → Option String)
    (save : Answers → Bool) (lookupP : String → Option String)
    (st : ConvState) (m : String) (ms : List String) :
    runTrace norm save lookupP st (m :: ms) =
      ((runTrace norm save lookupP
          (processTurn norm save lookupP st m).state ms).1,
        (processTurn norm save lookupP st m).askedQ.toList ++
          (runTrace norm save lookupP
            (processTurn norm save lookupP st m).state ms).2.1,
        (processTurn norm save lookupP st m).savedRec.toList ++
          (runTrace norm save lookupP
            (processTurn norm save lookupP st m).state ms).2.2) := rfl

theorem validSeq_cons_intake (norm : AnswerKind → String → Option String)
    (save : Answers → Bool) (lookupP : String → Option String)
    (i : Nat) (a : Answers) (m : String) (ms : List String) (q : Question)
    (hq : fnolCatalog.get? i = some q)
    (h : validSeq norm save lookupP ⟨Mode.intake i, a⟩ (m :: ms) = true) :
    ∃ v, isBlank m = false ∧ norm q.kind m = some v ∧
      validSeq norm save lookupP
        (processTurn norm save lookupP ⟨Mode.intake i, a⟩ m).state ms = true := by
  simp only [validSeq, Bool.and_eq_true] at h
  obtain ⟨h1, h2⟩ := h
  simp only [stepValid, hq, Bool.and_eq_true] at h1
  obtain ⟨hta, hvb⟩ := h1
  have ht : isBlank m = false := by
    cases hc : isBlank m with
    | true => rw [hc] at hta; simp at hta
    | false => rfl
  obtain ⟨v, hv⟩ := Option.isSome_iff_exists.mp hvb
  exact ⟨v, ht, hv, h2⟩

theorem validSeq_completed (norm : AnswerKind → String → Option String)
    (save : Answers → Bool) (lookupP : String → Option String)
    (a : Answers) (ms : List String)
    (h : validSeq norm save lookupP ⟨Mode.completedMode, a⟩ ms = true) :
    ms = [] := by
  cases ms with
  | nil => rfl
  | cons m ms => simp [validSeq, stepValid] at h

/-- Main induction: a valid run from an invariant intake state that reaches
the completed mode asks exactly the remaining applicable questions in
catalog order, collects exactly the applicable fields, hands exactly the
final answer set to the recorder, and preserves every previously recorded
answer. -/
theorem run_main (norm : AnswerKind → String → Option String)
    (save : Answers → Bool) (lookupP : String → Option String)
    (hsave : ∀ x, save x = true) :
    ∀ (msgs : List String) (i : Nat) (a : Answers),
      i < 19 → askIfIdx i a = true → answeredShape a i →
      validSeq norm save lookupP ⟨Mode.intake i, a⟩ msgs = true →
      (runTrace norm save lookupP ⟨Mode.intake i, a⟩ msgs).1.mode =
        Mode.completedMode →
      (runTrace norm save lookupP ⟨Mode.intake i, a⟩ msgs).2.1 =
        (List.range 19).filter (fun k =>
          askIfIdx k (runTrace norm save lookupP ⟨Mode.intake i, a⟩ msgs).1.answers
            && decide (i < k)) ∧
      (runTrace norm save lookupP ⟨Mode.intake i, a⟩ msgs).1.answers.map Prod.fst =
        (applIdx (runTrace norm save lookupP ⟨Mode.intake i, a⟩ msgs).1.answers).map
          fieldIdx ∧
      (runTrace norm save lookupP ⟨Mode.intake i, a⟩ msgs).2.2 =
        [(runTrace norm save lookupP ⟨Mode.intake i, a⟩ msgs).1.answers] ∧
      (∀ f w, List.lookup f a = some w →
        List.lookup f
          (runTrace norm save lookupP ⟨Mode.intake i, a⟩ msgs).1.answers = some w) := by
  intro msgs
  induction msgs with
  | nil =>
      intro i a hi hask hshape hvalid hdone
      rw [runTrace_nil] at hdone
      simp at hdone
  | cons m ms ih =>
      intro i a hi hask hshape hvalid hdone
      have hil : i < fnolCatalog.length := by rw [fnolCatalog_length]; exact hi
      obtain ⟨q, hq⟩ : ∃ q, fnolCatalog.get? i = some q :=
        ⟨fnolCatalog.get ⟨i, hil⟩, List.get?_eq_get hil⟩
      obtain ⟨v, ht, hv, hrest⟩ :=
        validSeq_cons_intake norm save lookupP i a m ms q hq hvalid
      have hfield : fieldIdx i = q.field := by
        unfold fieldIdx
        rw [hq]
      have hfresh : q.field ∉ a.map Prod.fst := by
        rw [hshape]
        intro hm
        obtain ⟨k, hkmem, hkeq⟩ := List.mem_map.mp hm
        obtain ⟨hkr, hkp⟩ := List.mem_filter.mp hkmem
        rw [List.mem_range] at hkr
        rw [Bool.and_eq_true] at hkp
        have hki : k < i := by
          have h2 := hkp.2
          simpa using h2
        have hkieq : k = i := fieldIdx_inj k hkr i hi (by rw [hkeq, hfield])
        omega
      have ha2 : recordAnswer a q.field v = a ++ [(q.field, v)] :=
        recordAnswer_fresh a q.field v hfresh
      have haska2 : askIfIdx i (recordAnswer a q.field v) = true := by
        rw [ha2, ← hfield, ask_self_append i a v hi]
        exact hask
      have hlt2 : ∀ k, k < i →
          askIfIdx k (recordAnswer a q.field v) = askIfIdx k a := by
        intro k hk
        rw [ha2, ← hfield]
        exact ask_lt_append k i a v hk hi
      cases hnext : nextApplicable (recordAnswer a q.field v) (i + 1) with
      | some jp =>
          obtain ⟨j, qj⟩ := jp
          have hstep : processTurn norm save lookupP ⟨Mode.intake i, a⟩ m =
              ⟨⟨Mode.intake j, recordAnswer a q.field v⟩,
                askResp (noteOf lookupP q v) qj, some j, none⟩ := by
            rw [processTurn_intake norm save lookupP i a q m hq]
            exact intakeStep_advance norm save lookupP i a q m v j qj ht hv hnext
          obtain ⟨hij, hj19, hgetj, haskj, hmidl⟩ :=
            nextApplicable_some _ _ _ _ hnext
          have hij2 : i < j := by omega
          have hmid2 : ∀ k, i < k → k < j →
              askIfIdx k (recordAnswer a q.field v) = false := by
            intro k h1 h2
            exact hmidl k (by omega) h2
          have hshape2 : answeredShape (recordAnswer a q.field v) j := by
            unfold answeredShape
            rw [filter_range_between i j
              (fun k => askIfIdx k (recordAnswer a q.field v))
              (fun k => askIfIdx k a) hij2 haska2 hlt2 hmid2 19 hi]
            rw [List.map_append, ← hshape, ha2, List.map_append]
            simp [hfield]
          rw [runTrace_cons] at hdone ⊢
          simp only [hstep] at hrest hdone ⊢
          obtain ⟨ihAsk, ihFields, ihSaves, ihPres⟩ :=
            ih j (recordAnswer a q.field v) hj19 haskj hshape2 hrest hdone
          have hjF : askIfIdx j
              (runTrace norm save lookupP
                ⟨Mode.intake j, recordAnswer a q.field v⟩ ms).1.answers = true := by
            by_cases hj7 : j = 7
            · subst hj7
              have h2 := haskj
              rw [askIfIdx_seven] at h2
              have h3 : List.lookup "policeReport" (recordAnswer a q.field v) =
                  some "Yes" := beq_iff_eq.mp h2
              have h4 := ihPres "policeReport" "Yes" h3
              rw [askIfIdx_seven, h4]
              rfl
            · rw [askIfIdx_const j _ hj7]
              exact decide_eq_true hj19
          have hmidF : ∀ k, i < k → k < j →
              askIfIdx k
                (runTrace norm save lookupP
                  ⟨Mode.intake j, recordAnswer a q.field v⟩ ms).1.answers = false := by
            intro k hik hkj
            have hka2 : askIfIdx k (recordAnswer a q.field v) = false :=
              hmid2 k hik hkj
            by_cases hk7 : k = 7
            · subst hk7
              by_cases hi6 : i = 6
              · subst hi6
                have hqf : q.field = "policeReport" := by
                  rw [← hfield, fieldIdx_six]
                have hl2 : List.lookup "policeReport"
                    (recordAnswer a q.field v) = some v := by
                  rw [← hqf]
                  exact lookup_recordAnswer_self a q.field v
                have hlF := ihPres "policeReport" v hl2
                rw [askIfIdx_seven] at hka2
                rw [hl2] at hka2
                rw [askIfIdx_seven, hlF]
                exact hka2
              · exfalso
                have h1 : i + 1 < 7 := by omega
                have h2 := hmidl (i + 1) (Nat.le_refl _) (by omega)
                rw [askIfIdx_const (i + 1) _ (by omega)] at h2
                rw [decide_eq_true (show i + 1 < 19 by omega)] at h2
                exact Bool.noConfusion h2
            · exfalso
              rw [askIfIdx_const k _ hk7] at hka2
              rw [decide_eq_true (show k < 19 by omega)] at hka2
              exact Bool.noConfusion hka2
          have hlb := filter_range_lb i j
            (fun k => askIfIdx k
              (runTrace norm save lookupP
                ⟨Mode.intake j, recordAnswer a q.field v⟩ ms).1.answers)
            hij2 hjF hmidF 19 hj19
          refine ⟨?_, ihFields, ?_, ?_⟩
          · rw [ihAsk, hlb]
            rfl
          · simpa using ihSaves
          · intro f w hfw
            apply ihPres
            rw [ha2]
            exact lookup_append_some a _ f w hfw
      | none =>
          have hsv := hsave (recordAnswer a q.field v)
          have hstep : processTurn norm save lookupP ⟨Mode.intake i, a⟩ m =
              ⟨⟨Mode.completedMode, recordAnswer a q.field v⟩, completionAck,
                none, some (recordAnswer a q.field v)⟩ := by
            rw [processTurn_intake norm save lookupP i a q m hq]
            exact intakeStep_complete norm save lookupP i a q m v ht hv hnext hsv
          have hmid19 : ∀ k, i < k → k < 19 →
              askIfIdx k (recordAnswer a q.field v) = false := by
            intro k h1 h2
            exact nextApplicable_none _ _ hnext k (by omega)
          simp only [hstep] at hrest
          have hmsnil : ms = [] :=
            validSeq_completed norm save lookupP (recordAnswer a q.field v) ms hrest
          subst hmsnil
          rw [runTrace_cons] at hdone ⊢
          simp only [hstep, runTrace_nil] at hdone ⊢
          simp only [Option.toList, List.nil_append, List.append_nil]
          refine ⟨?_, ?_, ?_, ?_⟩
          · symm
            rw [List.filter_eq_nil_iff]
            intro k hk
            rw [List.mem_range] at hk
            by_cases hik : i < k
            · rw [hmid19 k hik hk]
              simp
            · rw [decide_eq_false hik]
              simp
          · unfold applIdx
            have e0 : (List.range 19).filter
                (fun k => askIfIdx k (recordAnswer a q.field v)) =
                (List.range 19).filter
                  (fun k => askIfIdx k (recordAnswer a q.field v) &&
                    decide (k < 19)) := by
              apply List.filter_congr
              intro k hk
              rw [List.mem_range] at hk
              rw [decide_eq_true hk, Bool.and_true]
            rw [e0, filter_range_between i 19
              (fun k => askIfIdx k (recordAnswer a q.field v))
              (fun k => askIfIdx k a) hi haska2 hlt2 hmid19 19 hi]
            rw [List.map_append, ← hshape, ha2, List.map_append]
            simp [hfield]
          · simp
          · intro f w hfw
            rw [ha2]
            exact lookup_append_some a _ f w hfw

/-- Composition of the trigger turn with the intake run: a full conversation
that starts fresh, triggers intake, supplies valid answers and reaches the
completed mode asks exactly the applicable questions in catalog order,
collects exactly their fields, and saves exactly one record, the final one. -/
theorem full_run_spec (norm : AnswerKind → String → Option String)
    (save : Answers → Bool) (lookupP : String → Option String)
    (hsave : ∀ x, save x = true)
    (trigger : String) (htrig : containsTrigger trigger = true)
    (msgs : List String)
    (hvalid : validSeq norm save lookupP ⟨Mode.intake 0, []⟩ msgs = true)
    (hdone : (runTrace norm save lookupP ⟨Mode.conversational, []⟩
      (trigger :: msgs)).1.mode = Mode.completedMode) :
    (runTrace norm save lookupP ⟨Mode.conversational, []⟩ (trigger :: msgs)).2.1 =
      applIdx (runTrace norm save lookupP ⟨Mode.conversational, []⟩
        (trigger :: msgs)).1.answers ∧
    (runTrace norm save lookupP ⟨Mode.conversational, []⟩
        (trigger :: msgs)).1.answers.map Prod.fst =
      (applIdx (runTrace norm save lookupP ⟨Mode.conversational, []⟩
        (trigger :: msgs)).1.answers).map fieldIdx ∧
    (runTrace norm save lookupP ⟨Mode.conversational, []⟩ (trigger :: msgs)).2.2 =
      [(runTrace norm save lookupP ⟨Mode.conversational, []⟩
        (trigger :: msgs)).1.answers] ∧
    (∀ r ∈ (runTrace norm save lookupP ⟨Mode.conversational, []⟩
        (trigger :: msgs)).2.2,
      ∀ k, askIfIdx k r = true → fieldIdx k ∈ r.map Prod.fst) := by
  have hlen0 : 0 < fnolCatalog.length := by rw [fnolCatalog_length]; omega
  have hn : nextApplicable ([] : Answers) 0 =
      some (0, fnolCatalog.get ⟨0, hlen0⟩) := rfl
  have hstep0 : processTurn norm save lookupP ⟨Mode.conversational, []⟩ trigger =
      ⟨⟨Mode.intake 0, []⟩, askResp "" (fnolCatalog.get ⟨0, hlen0⟩),
        some 0, none⟩ :=
    processTurn_conv_trigger norm save lookupP [] trigger 0 _ htrig hn
  have hask0 : askIfIdx 0 ([] : Answers) = true := rfl
  have hshape0 : answeredShape ([] : Answers) 0 := by
    unfold answeredShape
    decide
  rw [runTrace_cons] at hdone ⊢
  simp only [hstep0] at hdone ⊢
  obtain ⟨ihAsk, ihFields, ihSaves, _⟩ :=
    run_main norm save lookupP hsave msgs 0 [] (by omega) hask0 hshape0
      hvalid hdone
  have h0F : askIfIdx 0
      (runTrace norm save lookupP ⟨Mode.intake 0, []⟩ msgs).1.answers = true := by
    rw [askIfIdx_const 0 _ (by omega)]
    rfl
  have hhead := filter_range_head
    (fun k => askIfIdx k
      (runTrace norm save lookupP ⟨Mode.intake 0, []⟩ msgs).1.answers)
    h0F 19 (by omega)
  refine ⟨?_, ihFields, ?_, ?_⟩
  · rw [ihAsk]
    unfold applIdx
    rw [hhead]
    rfl
  · simpa using ihSaves
  · intro r hr k hk
    have hr2 : r =
        (runTrace norm save lookupP ⟨Mode.intake 0, []⟩ msgs).1.answers := by
      have h3 : r ∈ [(runTrace norm save lookupP
          ⟨Mode.intake 0, []⟩ msgs).1.answers] := by
        rw [← ihSaves]
        simpa using hr
      simpa using h3
    subst hr2
    rw [ihFields]
    have hk19 : k < 19 := by
      by_contra hc
      rw [askIfIdx_ge k _ (by omega)] at hk
      exact Bool.noConfusion hk
    apply List.mem_map_of_mem
    unfold applIdx
    rw [List.mem_filter]
    exact ⟨List.mem_range.mpr hk19, hk⟩

/-- Scanning computation: a question whose predicate fails is stepped over. -/
theorem nextApplicable_step (a : Answers) (i : Nat) (q : Question)
    (hq : fnolCatalog.get? i = some q) (hfalse : q.askIf a = false) :
    nextApplicable a i = nextApplicable a (i + 1) := by
  have hil : i < fnolCatalog.length := by
    by_contra hc
    rw [List.get?_eq_none.mpr (by omega)] at hq
    exact Option.noConfusion hq
  have hget : fnolCatalog.get ⟨i, hil⟩ = q := by
    have h2 := List.get?_eq_get hil
    rw [hq] at h2
    exact (Option.some_inj.mp h2).symm
  unfold nextApplicable
  rw [List.drop_eq_getElem_cons hil]
  simp only [nextApplicableAux]
  have hgetE : fnolCatalog[i] = q := hget
  rw [hgetE, hfalse]
  simp

/-- Scanning computation: a question whose predicate holds is returned. -/
theorem nextApplicable_hit (a : Answers) (i : Nat) (q : Question)
    (hq : fnolCatalog.get? i = some q) (htrue : q.askIf a = true) :
    nextApplicable a i = some (i, q) := by
  have hil : i < fnolCatalog.length := by
    by_contra hc
    rw [List.get?_eq_none.mpr (by omega)] at hq
    exact Option.noConfusion hq
  have hget : fnolCatalog.get ⟨i, hil⟩ = q := by
    have h2 := List.get?_eq_get hil
    rw [hq] at h2
    exact (Option.some_inj.mp h2).symm
  unfold nextApplicable
  rw [List.drop_eq_getElem_cons hil]
  simp only [nextApplicableAux]
  have hgetE : fnolCatalog[i] = q := hget
  rw [hgetE, htrue]
  simp

/-- Claim C1: for every sequence of valid answers respecting the skip
predicates, the flow controller asks exactly the applicable questions of the
19-question catalog in catalog order (from Policy Number through Consent),
reaches the completed mode after the last applicable question, and the
persisted claim record contains exactly the fields of the questions that
were asked; a record is never handed to the recorder while some applicable
question lacks a normalized answer. -/
theorem fnol_C1 (norm : AnswerKind → String → Option String)
    (save : Answers → Bool) (lookupP : String → Option String)
    (hsave : ∀ x, save x = true)
    (trigger : String) (htrig : containsTrigger trigger = true)
    (msgs : List String)
    (hvalid : validSeq norm save lookupP ⟨Mode.intake 0, []⟩ msgs = true)
    (hdone : (runTrace norm save lookupP ⟨Mode.conversational, []⟩
      (trigger :: msgs)).1.mode = Mode.completedMode) :
    (runTrace norm save lookupP ⟨Mode.conversational, []⟩ (trigger :: msgs)).2.1 =
      applIdx (runTrace norm save lookupP ⟨Mode.conversational, []⟩
        (trigger :: msgs)).1.answers ∧
    (runTrace norm save lookupP ⟨Mode.conversational, []⟩
        (trigger :: msgs)).1.answers.map Prod.fst =
      (applIdx (runTrace norm save lookupP ⟨Mode.conversational, []⟩
        (trigger :: msgs)).1.answers).map fieldIdx ∧
    (runTrace norm save lookupP ⟨Mode.conversational, []⟩ (trigger :: msgs)).2.2 =
      [(runTrace norm save lookupP ⟨Mode.conversational, []⟩
        (trigger :: msgs)).1.answers] ∧
    (∀ r ∈ (runTrace norm save lookupP ⟨Mode.conversational, []⟩
        (trigger :: msgs)).2.2,
      ∀ k, askIfIdx k r = true → fieldIdx k ∈ r.map Prod.fst) :=
  full_run_spec norm save lookupP hsave trigger htrig msgs hvalid hdone

/-- Witness for C1: a concrete full run with the police report answered No,
evaluated on the deterministic stub normalizer. -/
theorem fnol_C1_witness :
    containsTrigger "I had a car accident" = true ∧
    validSeq stubNorm (fun _ => true) (fun _ => none)
      ⟨Mode.intake 0, []⟩ msgsNo = true ∧
    (runTrace stubNorm (fun _ => true) (fun _ => none)
      ⟨Mode.conversational, []⟩ ("I had a car accident" :: msgsNo)).1.mode =
      Mode.completedMode ∧
    ((runTrace stubNorm (fun _ => true) (fun _ => none)
        ⟨Mode.conversational, []⟩ ("I had a car accident" :: msgsNo)).2.1 =
      applIdx (runTrace stubNorm (fun _ => true) (fun _ => none)
        ⟨Mode.conversational, []⟩ ("I had a car accident" :: msgsNo)).1.answers ∧
    (runTrace stubNorm (fun _ => true) (fun _ => none)
        ⟨Mode.conversational, []⟩
        ("I had a car accident" :: msgsNo)).1.answers.map Prod.fst =
      (applIdx (runTrace stubNorm (fun _ => true) (fun _ => none)
        ⟨Mode.conversational, []⟩
        ("I had a car accident" :: msgsNo)).1.answers).map fieldIdx ∧
    (runTrace stubNorm (fun _ => true) (fun _ => none)
        ⟨Mode.conversational, []⟩ ("I had a car accident" :: msgsNo)).2.2 =
      [(runTrace stubNorm (fun _ => true) (fun _ => none)
        ⟨Mode.conversational, []⟩ ("I had a car accident" :: msgsNo)).1.answers] ∧
    (∀ r ∈ (runTrace stubNorm (fun _ => true) (fun _ => none)
        ⟨Mode.conversational, []⟩ ("I had a car accident" :: msgsNo)).2.2,
      ∀ k, askIfIdx k r = true → fieldIdx k ∈ r.map Prod.fst)) :=
  ⟨by decide, by decide, by decide,
    fnol_C1 stubNorm (fun _ => true) (fun _ => none) (fun _ => rfl)
      "I had a car accident" (by decide) msgsNo (by decide) (by decide)⟩

/-- Claim C5: at any intake question, an input that the normalizer rejects
(or that is empty or whitespace-only) leaves the state at the same question
and re-emits the same prompt with the clarification note, asking no new
question and saving nothing; repeating the identical unintelligible input
any number of times never advances the question index and never changes or
loses a previously collected answer. -/
theorem fnol_C5 (norm : AnswerKind → String → Option String)
    (save : Answers → Bool) (lookupP : String → Option String)
    (i : Nat) (a : Answers) (q : Question) (m : String)
    (hq : fnolCatalog.get? i = some q)
    (h : isBlank m = true ∨ norm q.kind m = none) :
    processTurn norm save lookupP ⟨Mode.intake i, a⟩ m =
      ⟨⟨Mode.intake i, a⟩, askResp clarifyNote q, none, none⟩ ∧
    ∀ n, runTrace norm save lookupP ⟨Mode.intake i, a⟩ (List.replicate n m) =
      (⟨Mode.intake i, a⟩, [], []) := by
  have hstep : processTurn norm save lookupP ⟨Mode.intake i, a⟩ m =
      ⟨⟨Mode.intake i, a⟩, askResp clarifyNote q, none, none⟩ := by
    rw [processTurn_intake norm save lookupP i a q m hq]
    exact intakeStep_fail norm save lookupP i a q m h
  refine ⟨hstep, ?_⟩
  intro n
  induction n with
  | zero => rfl
  | succ k ihk =>
      rw [List.replicate_succ, runTrace_cons]
      simp [hstep, ihk]

/-- Witness for C5: three repetitions of a whitespace-only input at the
first question leave the session exactly where it was. -/
theorem fnol_C5_witness :
    fnolCatalog.get? 0 =
      some ⟨"policyNumber", "Please provide your Policy Number.",
        AnswerKind.text, alwaysAsk⟩ ∧
    (isBlank "   " = true ∨
      stubNorm (AnswerKind.text) "   " = none) ∧
    runTrace stubNorm (fun _ => true) (fun _ => none)
      ⟨Mode.intake 0, [("x", "y")]⟩ (List.replicate 3 "   ") =
      (⟨Mode.intake 0, [("x", "y")]⟩, [], []) :=
  ⟨rfl, Or.inl (by decide),
    (fnol_C5 stubNorm (fun _ => true) (fun _ => none) 0 [("x", "y")]
      ⟨"policyNumber", "Please provide your Policy Number.",
        AnswerKind.text, alwaysAsk⟩ "   " rfl
      (Or.inl (by decide))).2 3⟩

/-- Claim C7: restart is signaled only by the literal message reset: in the
completed mode the message reset clears all collected answers, returns the
state to conversational and produces the fresh greeting, while any other
message leaves the completed state untouched; on the client side both
handleStartNew and the automatic restart after a completed response clear
the transcript and send exactly the string reset. -/
theorem fnol_C7 (norm : AnswerKind → String → Option String)
    (save : Answers → Bool) (lookupP : String → Option String)
    (a : Answers) (m : String) (st : ClientState)
    (hm : (m == "reset") = false) :
    processTurn norm save lookupP ⟨Mode.completedMode, a⟩ "reset" =
      ⟨⟨Mode.conversational, []⟩, greeting, none, none⟩ ∧
    processTurn norm save lookupP ⟨Mode.completedMode, a⟩ m =
      ⟨⟨Mode.completedMode, a⟩, completionAck, none, none⟩ ∧
    (handleStartNew st).2.1 = "reset" ∧
    (handleStartNew st).1.messages = [] ∧
    (handleStartNew st).2.2 = true ∧
    (completedAutoRestart st).2.1 = "reset" ∧
    (completedAutoRestart st).1.messages = [] :=
  ⟨processTurn_completed_reset norm save lookupP a,
   processTurn_completed_other norm save lookupP a m hm,
   rfl, rfl, rfl, rfl, rfl⟩

/-- Witness for C7 at a concrete non-reset message and a concrete client
state. -/
theorem fnol_C7_witness :
    ("hello" == "reset") = false ∧
    processTurn stubNorm (fun _ => true) (fun _ => none)
      ⟨Mode.completedMode, [("consent", "Yes")]⟩ "reset" =
      ⟨⟨Mode.conversational, []⟩, greeting, none, none⟩ ∧
    processTurn stubNorm (fun _ => true) (fun _ => none)
      ⟨Mode.completedMode, [("consent", "Yes")]⟩ "hello" =
      ⟨⟨Mode.completedMode, [("consent", "Yes")]⟩, completionAck, none, none⟩ :=
  ⟨by decide,
    (fnol_C7 stubNorm (fun _ => true) (fun _ => none) [("consent", "Yes")]
      "hello" ⟨[⟨Sender.botMsg, "done"⟩], "", false, true, true⟩
      (by decide)).1,
    (fnol_C7 stubNorm (fun _ => true) (fun _ => none) [("consent", "Yes")]
      "hello" ⟨[⟨Sender.botMsg, "done"⟩], "", false, true, true⟩
      (by decide)).2.1⟩

/-- Claim C9: a non-initial sendMessage call whose message is empty or
whitespace-only performs no request and changes no state, so every
non-initial request the client posts to the chat endpoint carries a message
with non-empty trimmed text; handleSubmit likewise only ever posts the
input box content when its trimmed text is non-empty. -/
theorem fnol_C9 :
    (∀ (sid : String) (st : ClientState) (msg : String),
      isBlank msg = true → sendMessageGuard sid st msg false = (st, none)) ∧
    (∀ (sid : String) (st : ClientState) (msg : String) (isInit : Bool)
        (req : PostedReq),
      (sendMessageGuard sid st msg isInit).2 = some req → isInit = false →
      isBlank req.message = false ∧ req.message = msg) ∧
    (∀ (sid : String) (st : ClientState) (req : PostedReq),
      (handleSubmit sid st).2 = some req → isBlank req.message = false) := by
  refine ⟨?_, ?_, ?_⟩
  · intro sid st msg hb
    simp [sendMessageGuard, hb]
  · intro sid st msg isInit req hpost hinit
    subst hinit
    by_cases hb : isBlank msg = true
    · simp [sendMessageGuard, hb] at hpost
    · constructor
      · simp only [sendMessageGuard, Bool.not_false, Bool.true_and] at hpost
        rw [if_neg (by simpa using hb)] at hpost
        simp at hpost
        rw [← hpost]
        simpa using hb
      · simp only [sendMessageGuard, Bool.not_false, Bool.true_and] at hpost
        rw [if_neg (by simpa using hb)] at hpost
        simp at hpost
        rw [← hpost]
  · intro sid st req h2
    unfold handleSubmit at h2
    by_cases hc : (!st.loading && !st.completedFlag && !isBlank st.inputBox) = true
    · rw [if_pos hc] at h2
      rw [Bool.and_eq_true, Bool.and_eq_true] at hc
      have hbi : isBlank st.inputBox = false := by
        have h3 := hc.2
        cases hcc : isBlank st.inputBox with
        | true => rw [hcc] at h3; simp at h3
        | false => rfl
      rw [sendMessageGuard] at h2
      rw [if_neg (by simp [hbi])] at h2
      simp at h2
      rw [← h2]
      exact hbi
    · rw [if_neg hc] at h2
      simp at h2

/-- Witness for C9: a whitespace-only non-initial call is a no-op on a
concrete state, a concrete posted request carries its non-blank message,
and a concrete handleSubmit posts non-blank text. -/
theorem fnol_C9_witness :
    (isBlank "   " = true ∧
      sendMessageGuard "s1" ⟨[], "x", false, false, true⟩ "   " false =
        (⟨[], "x", false, false, true⟩, none)) ∧
    ((sendMessageGuard "s1" ⟨[], "hi", false, false, true⟩ "hi" false).2 =
        some ⟨"hi", "s1"⟩ ∧
      isBlank (⟨"hi", "s1"⟩ : PostedReq).message = false ∧
      (⟨"hi", "s1"⟩ : PostedReq).message = "hi") ∧
    ((handleSubmit "s1" ⟨[], "hi", false, false, true⟩).2 =
        some ⟨"hi", "s1"⟩ ∧
      isBlank (⟨"hi", "s1"⟩ : PostedReq).message = false) :=
  ⟨⟨by decide,
    fnol_C9.1 "s1" ⟨[], "x", false, false, true⟩ "   " (by decide)⟩,
   ⟨by decide,
    fnol_C9.2.1 "s1" ⟨[], "hi", false, false, true⟩ "hi" false ⟨"hi", "s1"⟩
      (by decide) rfl⟩,
   ⟨by decide,
    fnol_C9.2.2 "s1" ⟨[], "hi", false, false, true⟩ ⟨"hi", "s1"⟩
      (by decide)⟩⟩

/-- Claim C10: handleLogout unconditionally clears the client session state
and the stored session entries first, attempts the backend logout only
afterwards and only for a previously present session id, and swallows any
error of that call: the resulting local state is fully logged out no matter
what the backend returned. -/
theorem fnol_C10 (st : AppState) (r : Except String Unit) (sid : String)
    (hmem : LogoutStep.postLogout sid ∈ (handleLogout st r).2) :
    (handleLogout st r).1 = ⟨none, none, none, none⟩ ∧
    (handleLogout st r).2.head? = some LogoutStep.clearLocal ∧
    (∀ r2, handleLogout st r = handleLogout st r2) ∧
    st.sessionId = some sid := by
  refine ⟨?_, ?_, ?_, ?_⟩
  · cases r <;> rfl
  · cases r <;> rfl
  · intro r2
    cases r <;> cases r2 <;> rfl
  · have hsteps : (handleLogout st r).2 =
        LogoutStep.clearLocal ::
          (match st.sessionId with
           | some s => [LogoutStep.postLogout s]
           | none => []) := by
      cases r <;> rfl
    rw [hsteps] at hmem
    cases hs : st.sessionId with
    | none =>
        rw [hs] at hmem
        simp at hmem
    | some s =>
        rw [hs] at hmem
        simp at hmem
        rw [hmem]

/-- Witness for C10 at a concrete logged-in state and a failing backend
call. -/
theorem fnol_C10_witness :
    LogoutStep.postLogout "s1" ∈
      (handleLogout ⟨some "s1", some "u", some "s1", some "u"⟩
        (Except.error "down")).2 ∧
    ((handleLogout ⟨some "s1", some "u", some "s1", some "u"⟩
        (Except.error "down")).1 = ⟨none, none, none, none⟩ ∧
      (⟨some "s1", some "u", some "s1", some "u"⟩ : AppState).sessionId =
        some "s1") :=
  ⟨by decide,
    (fnol_C10 ⟨some "s1", some "u", some "s1", some "u"⟩ (Except.error "down")
      "s1" (by decide)).1,
    (fnol_C10 ⟨some "s1", some "u", some "s1", some "u"⟩ (Except.error "down")
      "s1" (by decide)).2.2.2⟩

/-- Claim C3: when the Police Report question (index 6) is answered No, the
state machine transitions directly past the Police Report Number question
(index 7) to index 8, and in any completed valid run with that answer the
index 7 is never asked and its field is absent from the collected answers;
when Police Report is answered Yes, index 7 is asked next, and in any
completed valid run with that answer the index 7 is among the asked
questions. -/
theorem fnol_C3 :
    (∀ (norm : AnswerKind → String → Option String) (save : Answers → Bool)
        (lookupP : String → Option String) (a : Answers) (m : String),
      isBlank m = false → norm AnswerKind.yesno m = some "No" →
      (processTurn norm save lookupP ⟨Mode.intake 6, a⟩ m).state.mode =
          Mode.intake 8 ∧
        (processTurn norm save lookupP ⟨Mode.intake 6, a⟩ m).askedQ = some 8) ∧
    (∀ (norm : AnswerKind → String → Option String) (save : Answers → Bool)
        (lookupP : String → Option String) (a : Answers) (m : String),
      isBlank m = false → norm AnswerKind.yesno m = some "Yes" →
      (processTurn norm save lookupP ⟨Mode.intake 6, a⟩ m).state.mode =
          Mode.intake 7 ∧
        (processTurn norm save lookupP ⟨Mode.intake 6, a⟩ m).askedQ = some 7) ∧
    (∀ (norm : AnswerKind → String → Option String) (save : Answers → Bool)
        (lookupP : String → Option String) (trigger : String)
        (msgs : List String),
      (∀ x, save x = true) → containsTrigger trigger = true →
      validSeq norm save lookupP ⟨Mode.intake 0, []⟩ msgs = true →
      (runTrace norm save lookupP ⟨Mode.conversational, []⟩
        (trigger :: msgs)).1.mode = Mode.completedMode →
      (List.lookup "policeReport"
          (runTrace norm save lookupP ⟨Mode.conversational, []⟩
            (trigger :: msgs)).1.answers = some "No" →
        7 ∉ (runTrace norm save lookupP ⟨Mode.conversational, []⟩
          (trigger :: msgs)).2.1 ∧
        "policeReportNumber" ∉
          (runTrace norm save lookupP ⟨Mode.conversational, []⟩
            (trigger :: msgs)).1.answers.map Prod.fst) ∧
      (List.lookup "policeReport"
          (runTrace norm save lookupP ⟨Mode.conversational, []⟩
            (trigger :: msgs)).1.answers = some "Yes" →
        7 ∈ (runTrace norm save lookupP ⟨Mode.conversational, []⟩
          (trigger :: msgs)).2.1)) := by
  refine ⟨?_, ?_, ?_⟩
  · intro norm save lookupP a m hb hv
    have hl := lookup_recordAnswer_self a "policeReport" "No"
    have h7 : yesAnswered "policeReport"
        (recordAnswer a "policeReport" "No") = false := by
      unfold yesAnswered
      rw [hl]
      rfl
    have hnext : nextApplicable (recordAnswer a "policeReport" "No") 7 =
        some (8, ⟨"vehicleDamage", "Please describe the damage to the vehicle.",
          AnswerKind.text, alwaysAsk⟩) :=
      (nextApplicable_step _ 7 _ rfl h7).trans
        (nextApplicable_hit _ 8 _ rfl rfl)
    rw [processTurn_intake norm save lookupP 6 a
        ⟨"policeReport", "Was a police report filed?", AnswerKind.yesno,
          alwaysAsk⟩ m rfl,
      intakeStep_advance norm save lookupP 6 a _ m "No" 8 _ hb hv hnext]
    exact ⟨rfl, rfl⟩
  · intro norm save lookupP a m hb hv
    have hl := lookup_recordAnswer_self a "policeReport" "Yes"
    have h7 : yesAnswered "policeReport"
        (recordAnswer a "policeReport" "Yes") = true := by
      unfold yesAnswered
      rw [hl]
      rfl
    have hnext : nextApplicable (recordAnswer a "policeReport" "Yes") 7 =
        some (7, ⟨"policeReportNumber", "Please provide the Police Report Number.",
          AnswerKind.text, yesAnswered "policeReport"⟩) :=
      nextApplicable_hit _ 7 _ rfl h7
    rw [processTurn_intake norm save lookupP 6 a
        ⟨"policeReport", "Was a police report filed?", AnswerKind.yesno,
          alwaysAsk⟩ m rfl,
      intakeStep_advance norm save lookupP 6 a _ m "Yes" 7 _ hb hv hnext]
    exact ⟨rfl, rfl⟩
  · intro norm save lookupP trigger msgs hsave htrig hvalid hdone
    obtain ⟨hAsk, hFields, _, _⟩ :=
      full_run_spec norm save lookupP hsave trigger htrig msgs hvalid hdone
    constructor
    · intro hNo
      constructor
      · rw [hAsk]
        intro hmem
        simp only [applIdx, List.mem_filter] at hmem
        have h7t := hmem.2
        rw [askIfIdx_seven, hNo] at h7t
        exact absurd h7t (by decide)
      · intro hmem
        rw [hFields] at hmem
        obtain ⟨k, hk, hkeq⟩ := List.mem_map.mp hmem
        simp only [applIdx, List.mem_filter, List.mem_range] at hk
        have hk7 : k = 7 :=
          fieldIdx_inj k hk.1 7 (by omega) (by rw [hkeq, fieldIdx_seven])
        subst hk7
        have h7t := hk.2
        rw [askIfIdx_seven, hNo] at h7t
        exact absurd h7t (by decide)
    · intro hYes
      rw [hAsk]
      simp only [applIdx, List.mem_filter, List.mem_range]
      refine ⟨by omega, ?_⟩
      rw [askIfIdx_seven, hYes]
      rfl

/-- Witness for C3: the local No and Yes steps on the stub normalizer, and
the completed runs with the police report answered No and Yes. -/
theorem fnol_C3_witness :
    (isBlank "No" = false ∧ stubNorm AnswerKind.yesno "No" = some "No" ∧
      (processTurn stubNorm (fun _ => true) (fun _ => none)
        ⟨Mode.intake 6, []⟩ "No").state.mode = Mode.intake 8) ∧
    (List.lookup "policeReport"
        (runTrace stubNorm (fun _ => true) (fun _ => none)
          ⟨Mode.conversational, []⟩
          ("I had a car accident" :: msgsNo)).1.answers = some "No" ∧
      7 ∉ (runTrace stubNorm (fun _ => true) (fun _ => none)
        ⟨Mode.conversational, []⟩ ("I had a car accident" :: msgsNo)).2.1) ∧
    (List.lookup "policeReport"
        (runTrace stubNorm (fun _ => true) (fun _ => none)
          ⟨Mode.conversational, []⟩
          ("I had a car accident" :: msgsYes)).1.answers = some "Yes" ∧
      7 ∈ (runTrace stubNorm (fun _ => true) (fun _ => none)
        ⟨Mode.conversational, []⟩ ("I had a car accident" :: msgsYes)).2.1) :=
  ⟨⟨by decide, by decide,
    (fnol_C3.1 stubNorm (fun _ => true) (fun _ => none) [] "No"
      (by decide) (by decide)).1⟩,
   ⟨by decide,
    ((fnol_C3.2.2 stubNorm (fun _ => true) (fun _ => none)
      "I had a car accident" msgsNo (fun _ => rfl) (by decide) (by decide)
      (by decide)).1 (by decide)).1⟩,
   ⟨by decide,
    (fnol_C3.2.2 stubNorm (fun _ => true) (fun _ => none)
      "I had a car accident" msgsYes (fun _ => rfl) (by decide) (by decide)
      (by decide)).2 (by decide)⟩⟩

/-- Claim C4: a message containing a claim-trigger keyword received in the
conversational state transitions the session to intake at the first
applicable question (index 0) and emits that question as the response; the
same message received during intake never restarts the flow: the turn
outcome depends on the message only through the normalizer verdict, and
when the normalizer rejects the message the session stays at its current
question with its answers intact. -/
theorem fnol_C4 :
    (∀ (norm : AnswerKind → String → Option String) (save : Answers → Bool)
        (lookupP : String → Option String) (m : String),
      containsTrigger m = true →
      processTurn norm save lookupP ⟨Mode.conversational, []⟩ m =
        ⟨⟨Mode.intake 0, []⟩,
          askResp "" ⟨"policyNumber", "Please provide your Policy Number.",
            AnswerKind.text, alwaysAsk⟩, some 0, none⟩) ∧
    (∀ (norm : AnswerKind → String → Option String) (save : Answers → Bool)
        (lookupP : String → Option String) (i : Nat) (a : Answers)
        (m m2 : String),
      isBlank m = isBlank m2 →
      (∀ q, fnolCatalog.get? i = some q → norm q.kind m = norm q.kind m2) →
      processTurn norm save lookupP ⟨Mode.intake i, a⟩ m =
        processTurn norm save lookupP ⟨Mode.intake i, a⟩ m2) ∧
    (∀ (norm : AnswerKind → String → Option String) (save : Answers → Bool)
        (lookupP : String → Option String) (i : Nat) (a : Answers)
        (q : Question) (m : String),
      fnolCatalog.get? i = some q → norm q.kind m = none →
      (processTurn norm save lookupP ⟨Mode.intake i, a⟩ m).state =
        ⟨Mode.intake i, a⟩) := by
  refine ⟨?_, ?_, ?_⟩
  · intro norm save lookupP m htrig
    exact processTurn_conv_trigger norm save lookupP [] m 0 _ htrig rfl
  · intro norm save lookupP i a m m2 h1 h2
    cases hget : fnolCatalog.get? i with
    | none => simp only [processTurn, hget]
    | some q =>
        rw [processTurn_intake norm save lookupP i a q m hget,
          processTurn_intake norm save lookupP i a q m2 hget]
        unfold intakeStep
        rw [← h1, ← h2 q hget]
  · intro norm save lookupP i a q m hget hnorm
    rw [processTurn_intake norm save lookupP i a q m hget,
      intakeStep_fail norm save lookupP i a q m (Or.inr hnorm)]

/-- Witness for C4: the trigger message opens intake at question 0; the
same message mid-intake at the yes-or-no question 6 is rejected by the stub
normalizer and leaves the session at question 6. -/
theorem fnol_C4_witness :
    containsTrigger "I had a car accident" = true ∧
    processTurn stubNorm (fun _ => true) (fun _ => none)
      ⟨Mode.conversational, []⟩ "I had a car accident" =
      ⟨⟨Mode.intake 0, []⟩,
        askResp "" ⟨"policyNumber", "Please provide your Policy Number.",
          AnswerKind.text, alwaysAsk⟩, some 0, none⟩ ∧
    (processTurn stubNorm (fun _ => true) (fun _ => none)
      ⟨Mode.intake 6, [("policyNumber", "P1")]⟩ "I had a car accident").state =
      ⟨Mode.intake 6, [("policyNumber", "P1")]⟩ :=
  ⟨by decide,
   fnol_C4.1 stubNorm (fun _ => true) (fun _ => none)
     "I had a car accident" (by decide),
   fnol_C4.2.2 stubNorm (fun _ => true) (fun _ => none) 6
     [("policyNumber", "P1")]
     ⟨"policeReport", "Was a police report filed?", AnswerKind.yesno,
       alwaysAsk⟩ "I had a car accident" rfl (by decide)⟩

/-- Claim C6: when the recorder fails on the final answer the controller
keeps the session at the same intake question with all collected answers
preserved and emits a recoverable, non-completed error response; the state
reaches the completed mode only when the save of the resulting answers
returned success, with exactly that record handed to the recorder; the
policy lookup collaborator can never affect the state, the asked question
or the saved record; and a normalization failure never advances the
question index. -/
theorem fnol_C6 :
    (∀ (norm : AnswerKind → String → Option String) (save : Answers → Bool)
        (lookupP : String → Option String) (i : Nat) (a : Answers)
        (q : Question) (m v : String),
      fnolCatalog.get? i = some q → isBlank m = false →
      norm q.kind m = some v →
      nextApplicable (recordAnswer a q.field v) (i + 1) = none →
      save (recordAnswer a q.field v) = false →
      processTurn norm save lookupP ⟨Mode.intake i, a⟩ m =
        ⟨⟨Mode.intake i, recordAnswer a q.field v⟩, persistErrorResp q, none,
          some (recordAnswer a q.field v)⟩ ∧
      (persistErrorResp q).completed = false ∧
      (∀ f w, f ≠ q.field → List.lookup f a = some w →
        List.lookup f (recordAnswer a q.field v) = some w)) ∧
    (∀ (norm : AnswerKind → String → Option String) (save : Answers → Bool)
        (lookupP : String → Option String) (i : Nat) (a : Answers) (m : String),
      (processTurn norm save lookupP ⟨Mode.intake i, a⟩ m).state.mode =
        Mode.completedMode →
      save ((processTurn norm save lookupP ⟨Mode.intake i, a⟩ m).state.answers) =
        true ∧
      (processTurn norm save lookupP ⟨Mode.intake i, a⟩ m).savedRec =
        some ((processTurn norm save lookupP ⟨Mode.intake i, a⟩ m).state.answers)) ∧
    (∀ (norm : AnswerKind → String → Option String) (save : Answers → Bool)
        (lookupP lookupP2 : String → Option String) (st : ConvState) (m : String),
      (processTurn norm save lookupP st m).state =
        (processTurn norm save lookupP2 st m).state ∧
      (processTurn norm save lookupP st m).askedQ =
        (processTurn norm save lookupP2 st m).askedQ ∧
      (processTurn norm save lookupP st m).savedRec =
        (processTurn norm save lookupP2 st m).savedRec) ∧
    (∀ (norm : AnswerKind → String → Option String) (save : Answers → Bool)
        (lookupP : String → Option String) (i : Nat) (a : Answers)
        (q : Question) (m : String),
      fnolCatalog.get? i = some q → norm q.kind m = none →
      (processTurn norm save lookupP ⟨Mode.intake i, a⟩ m).state =
        ⟨Mode.intake i, a⟩) := by
  refine ⟨?_, ?_, ?_, ?_⟩
  · intro norm save lookupP i a q m v hget hb hv hnx hsv
    refine ⟨?_, rfl, ?_⟩
    · rw [processTurn_intake norm save lookupP i a q m hget,
        intakeStep_saveFail norm save lookupP i a q m v hb hv hnx hsv]
    · intro f w hf hfw
      rw [lookup_recordAnswer_ne a q.field f v hf]
      exact hfw
  · intro norm save lookupP i a m hC
    cases hget : fnolCatalog.get? i with
    | none =>
        exfalso
        have he : processTurn norm save lookupP ⟨Mode.intake i, a⟩ m =
            ⟨⟨Mode.intake i, a⟩, convReply, none, none⟩ := by
          simp only [processTurn, hget]
        rw [he] at hC
        exact Mode.noConfusion hC
    | some q =>
        rw [processTurn_intake norm save lookupP i a q m hget] at hC ⊢
        by_cases hb : isBlank m = true
        · rw [intakeStep_fail norm save lookupP i a q m (Or.inl hb)] at hC
          exact Mode.noConfusion hC
        · have hbf : isBlank m = false := by
            cases hcc : isBlank m with
            | false => rfl
            | true => exact absurd hcc hb
          cases hnm : norm q.kind m with
          | none =>
              rw [intakeStep_fail norm save lookupP i a q m (Or.inr hnm)] at hC
              exact Mode.noConfusion hC
          | some v =>
              cases hnx : nextApplicable (recordAnswer a q.field v) (i + 1) with
              | some jp =>
                  obtain ⟨j, qj⟩ := jp
                  rw [intakeStep_advance norm save lookupP i a q m v j qj
                    hbf hnm hnx] at hC
                  exact Mode.noConfusion hC
              | none =>
                  cases hsv : save (recordAnswer a q.field v) with
                  | true =>
                      rw [intakeStep_complete norm save lookupP i a q m v
                        hbf hnm hnx hsv] at hC ⊢
                      exact ⟨hsv, rfl⟩
                  | false =>
                      rw [intakeStep_saveFail norm save lookupP i a q m v
                        hbf hnm hnx hsv] at hC
                      exact Mode.noConfusion hC
  · intro norm save lookupP lookupP2 st m
    rcases st with ⟨mode, a⟩
    cases mode with
    | idle => exact ⟨rfl, rfl, rfl⟩
    | conversational =>
        cases hc : containsTrigger m with
        | false => simp [processTurn, hc]
        | true =>
            cases hn : nextApplicable a 0 with
            | none => simp [processTurn, hc, hn]
            | some jp =>
                obtain ⟨j, q⟩ := jp
                simp [processTurn, hc, hn]
    | intake i =>
        cases hget : fnolCatalog.get? i with
        | none =>
            have hgetE : fnolCatalog[i]? = none := by
              rw [← List.get?_eq_getElem?]
              exact hget
            simp [processTurn, hgetE]
        | some q =>
            rw [processTurn_intake norm save lookupP i a q m hget,
              processTurn_intake norm save lookupP2 i a q m hget]
            by_cases hb : isBlank m = true
            · rw [intakeStep_fail norm save lookupP i a q m (Or.inl hb),
                intakeStep_fail norm save lookupP2 i a q m (Or.inl hb)]
              exact ⟨rfl, rfl, rfl⟩
            · have hbf : isBlank m = false := by
                cases hcc : isBlank m with
                | false => rfl
                | true => exact absurd hcc hb
              cases hnm : norm q.kind m with
              | none =>
                  rw [intakeStep_fail norm save lookupP i a q m (Or.inr hnm),
                    intakeStep_fail norm save lookupP2 i a q m (Or.inr hnm)]
                  exact ⟨rfl, rfl, rfl⟩
              | some v =>
                  cases hnx : nextApplicable (recordAnswer a q.field v)
                      (i + 1) with
                  | some jp =>
                      obtain ⟨j, qj⟩ := jp
                      rw [intakeStep_advance norm save lookupP i a q m v j qj
                          hbf hnm hnx,
                        intakeStep_advance norm save lookupP2 i a q m v j qj
                          hbf hnm hnx]
                      exact ⟨rfl, rfl, rfl⟩
                  | none =>
                      cases hsv : save (recordAnswer a q.field v) with
                      | true =>
                          rw [intakeStep_complete norm save lookupP i a q m v
                              hbf hnm hnx hsv,
                            intakeStep_complete norm save lookupP2 i a q m v
                              hbf hnm hnx hsv]
                          exact ⟨rfl, rfl, rfl⟩
                      | false =>
                          rw [intakeStep_saveFail norm save lookupP i a q m v
                              hbf hnm hnx hsv,
                            intakeStep_saveFail norm save lookupP2 i a q m v
                              hbf hnm hnx hsv]
                          exact ⟨rfl, rfl, rfl⟩
    | completedMode =>
        cases hr : m == "reset" with
        | true => simp [processTurn, hr]
        | false => simp [processTurn, hr]
  · intro norm save lookupP i a q m hget hnorm
    rw [processTurn_intake norm save lookupP i a q m hget,
      intakeStep_fail norm save lookupP i a q m (Or.inr hnorm)]

/-- Witness for C6: a failing recorder on the final Consent answer keeps
the session at question 18 with the answer recorded and no completion; a
succeeding recorder reaches the completed mode with the record saved. -/
theorem fnol_C6_witness :
    (processTurn stubNorm (fun _ => false) (fun _ => none)
      ⟨Mode.intake 18, []⟩ "Yes" =
      ⟨⟨Mode.intake 18, [("consent", "Yes")]⟩,
        persistErrorResp ⟨"consent",
          "Do you consent to the processing of this claim?",
          AnswerKind.yesno, alwaysAsk⟩, none, some [("consent", "Yes")]⟩) ∧
    ((fun _ : Answers => true)
        ((processTurn stubNorm (fun _ => true) (fun _ => none)
          ⟨Mode.intake 18, []⟩ "Yes").state.answers) = true ∧
      (processTurn stubNorm (fun _ => true) (fun _ => none)
        ⟨Mode.intake 18, []⟩ "Yes").savedRec =
        some ((processTurn stubNorm (fun _ => true) (fun _ => none)
          ⟨Mode.intake 18, []⟩ "Yes").state.answers)) ∧
    (processTurn stubNorm (fun _ => true) (fun _ => none)
      ⟨Mode.intake 6, [("policyNumber", "P1")]⟩ "maybe").state =
      ⟨Mode.intake 6, [("policyNumber", "P1")]⟩ :=
  ⟨(fnol_C6.1 stubNorm (fun _ => false) (fun _ => none) 18 []
      ⟨"consent", "Do you consent to the processing of this claim?",
        AnswerKind.yesno, alwaysAsk⟩ "Yes" "Yes" rfl (by decide) (by decide)
      rfl (by decide)).1,
   fnol_C6.2.1 stubNorm (fun _ => true) (fun _ => none) 18 [] "Yes"
     (by decide),
   fnol_C6.2.2.2 stubNorm (fun _ => true) (fun _ => none) 6
     [("policyNumber", "P1")]
     ⟨"policeReport", "Was a police report filed?", AnswerKind.yesno,
       alwaysAsk⟩ "maybe" rfl (by decide)⟩

/-- Every options question of the catalog carries a non-empty option list. -/
theorem kinds_ok : ∀ kk ∈ fnolCatalog.map Question.kind,
    questionTypeString kk = "options" → optionsOf kk ≠ [] := by decide

/-- Every response of the controller either is a plain text response with no
options, or carries the question type and options of a catalog question. -/
theorem processTurn_resp_shape (norm : AnswerKind → String → Option String)
    (save : Answers → Bool) (lookupP : String → Option String)
    (st : ConvState) (m : String) :
    ((processTurn norm save lookupP st m).resp.questionType = "text" ∧
      (processTurn norm save lookupP st m).resp.options = []) ∨
    (∃ i q, fnolCatalog.get? i = some q ∧
      (processTurn norm save lookupP st m).resp.questionType =
        questionTypeString q.kind ∧
      (processTurn norm save lookupP st m).resp.options = optionsOf q.kind) := by
  rcases st with ⟨mode, a⟩
  cases mode with
  | idle => exact Or.inl ⟨rfl, rfl⟩
  | conversational =>
      cases hc : containsTrigger m with
      | false =>
          left
          constructor <;> simp [processTurn, hc, convReply]
      | true =>
          cases hn : nextApplicable a 0 with
          | none =>
              left
              constructor <;> simp [processTurn, hc, hn, convReply]
          | some jp =>
              obtain ⟨j, q⟩ := jp
              right
              obtain ⟨_, _, hgetj, _, _⟩ := nextApplicable_some a 0 j q hn
              exact ⟨j, q, hgetj, by simp [processTurn, hc, hn, askResp],
                by simp [processTurn, hc, hn, askResp]⟩
  | intake i =>
      cases hget : fnolCatalog.get? i with
      | none =>
          left
          have hgetE : fnolCatalog[i]? = none := by
            rw [← List.get?_eq_getElem?]
            exact hget
          constructor <;> simp [processTurn, hgetE, convReply]
      | some q =>
          rw [processTurn_intake norm save lookupP i a q m hget]
          by_cases hb : isBlank m = true
          · rw [intakeStep_fail norm save lookupP i a q m (Or.inl hb)]
            exact Or.inr ⟨i, q, hget, rfl, rfl⟩
          · have hbf : isBlank m = false := by
              cases hcc : isBlank m with
              | false => rfl
              | true => exact absurd hcc hb
            cases hnm : norm q.kind m with
            | none =>
                rw [intakeStep_fail norm save lookupP i a q m (Or.inr hnm)]
                exact Or.inr ⟨i, q, hget, rfl, rfl⟩
            | some v =>
                cases hnx : nextApplicable (recordAnswer a q.field v)
                    (i + 1) with
                | some jp =>
                    obtain ⟨j, qj⟩ := jp
                    rw [intakeStep_advance norm save lookupP i a q m v j qj
                      hbf hnm hnx]
                    obtain ⟨_, _, hgetj, _, _⟩ :=
                      nextApplicable_some _ _ j qj hnx
                    exact Or.inr ⟨j, qj, hgetj, rfl, rfl⟩
                | none =>
                    cases hsv : save (recordAnswer a q.field v) with
                    | true =>
                        rw [intakeStep_complete norm save lookupP i a q m v
                          hbf hnm hnx hsv]
                        exact Or.inl ⟨rfl, rfl⟩
                    | false =>
                        rw [intakeStep_saveFail norm save lookupP i a q m v
                          hbf hnm hnx hsv]
                        exact Or.inr ⟨i, q, hget, rfl, rfl⟩
  | completedMode =>
      cases hr : m == "reset" with
      | true =>
          left
          constructor <;> simp [processTurn, hr, greeting]
      | false =>
          left
          constructor <;> simp [processTurn, hr, completionAck]

/-- Rendering facts of the client input area for a well-formed response. -/
theorem renderFacts (qt : String) (opts : List String)
    (h : qt = "text" ∨ qt = "yesno" ∨ (qt = "options" ∧ opts ≠ [])) :
    ((renderInput qt opts).yesNoButtons = true ↔ qt = "yesno") ∧
    (qt = "options" → (renderInput qt opts).dropdownOpts = some opts) ∧
    (qt = "text" → (renderInput qt opts).textForm = true ∧
      (renderInput qt opts).textFieldEnabled = true ∧
      (renderInput qt opts).sendButton = true) ∧
    (qt = "yesno" → (renderInput qt opts).yesNoButtons = true ∧
      (renderInput qt opts).textFieldEnabled = false ∧
      (renderInput qt opts).sendButton = false) := by
  rcases h with h | h | ⟨h, hne⟩
  · subst h
    refine ⟨by simp [renderInput], by intro hc; exact absurd hc (by decide),
      fun _ => ⟨rfl, rfl, rfl⟩, by intro hc; exact absurd hc (by decide)⟩
  · subst h
    refine ⟨by simp [renderInput], by intro hc; exact absurd hc (by decide),
      by intro hc; exact absurd hc (by decide), fun _ => ⟨rfl, rfl, rfl⟩⟩
  · subst h
    refine ⟨by simp [renderInput], ?_,
      by intro hc; exact absurd hc (by decide),
      by intro hc; exact absurd hc (by decide)⟩
    intro _
    cases opts with
    | nil => exact absurd rfl hne
    | cons c cs => simp [renderInput]

/-- Claim C2: every chat-turn response of the controller carries a
questionType drawn from exactly the enumerated values text, yesno and
options, together with a string response, a list of options (non-empty
whenever the questionType is options) and a completed flag; the client
renders the input area from these fields as FloatingChatbot.js does:
Yes and No buttons exactly for yesno, a dropdown over the returned options
for options, and an enabled free-text box with a send button for text. -/
theorem fnol_C2 (norm : AnswerKind → String → Option String)
    (save : Answers → Bool) (lookupP : String → Option String)
    (st : ConvState) (m : String) :
    ((processTurn norm save lookupP st m).resp.questionType = "text" ∨
      (processTurn norm save lookupP st m).resp.questionType = "yesno" ∨
      (processTurn norm save lookupP st m).resp.questionType = "options") ∧
    ((processTurn norm save lookupP st m).resp.questionType = "options" →
      (processTurn norm save lookupP st m).resp.options ≠ []) ∧
    ((renderInput (processTurn norm save lookupP st m).resp.questionType
        (processTurn norm save lookupP st m).resp.options).yesNoButtons = true ↔
      (processTurn norm save lookupP st m).resp.questionType = "yesno") ∧
    ((processTurn norm save lookupP st m).resp.questionType = "options" →
      (renderInput (processTurn norm save lookupP st m).resp.questionType
        (processTurn norm save lookupP st m).resp.options).dropdownOpts =
        some (processTurn norm save lookupP st m).resp.options) ∧
    ((processTurn norm save lookupP st m).resp.questionType = "text" →
      (renderInput (processTurn norm save lookupP st m).resp.questionType
          (processTurn norm save lookupP st m).resp.options).textForm = true ∧
        (renderInput (processTurn norm save lookupP st m).resp.questionType
          (processTurn norm save lookupP st m).resp.options).textFieldEnabled =
          true ∧
        (renderInput (processTurn norm save lookupP st m).resp.questionType
          (processTurn norm save lookupP st m).resp.options).sendButton =
          true) ∧
    ((processTurn norm save lookupP st m).resp.questionType = "yesno" →
      (renderInput (processTurn norm save lookupP st m).resp.questionType
          (processTurn norm save lookupP st m).resp.options).yesNoButtons =
          true ∧
        (renderInput (processTurn norm save lookupP st m).resp.questionType
          (processTurn norm save lookupP st m).resp.options).textFieldEnabled =
          false ∧
        (renderInput (processTurn norm save lookupP st m).resp.questionType
          (processTurn norm save lookupP st m).resp.options).sendButton =
          false) := by
  have hshape3 : (processTurn norm save lookupP st m).resp.questionType =
      "text" ∨ (processTurn norm save lookupP st m).resp.questionType =
      "yesno" ∨ ((processTurn norm save lookupP st m).resp.questionType =
      "options" ∧ (processTurn norm save lookupP st m).resp.options ≠ []) := by
    rcases processTurn_resp_shape norm save lookupP st m with ⟨hqt, _⟩ |
      ⟨i, q, hget, hqt, hopts⟩
    · exact Or.inl hqt
    · cases hk : q.kind with
      | text => left; rw [hqt, hk]; rfl
      | yesno => right; left; rw [hqt, hk]; rfl
      | options kk =>
          right; right
          constructor
          · rw [hqt, hk]
            rfl
          · rw [hopts, hk]
            have hm2 : q.kind ∈ fnolCatalog.map Question.kind :=
              List.mem_map_of_mem Question.kind (List.get?_mem hget)
            rw [hk] at hm2
            have h3 := kinds_ok (AnswerKind.options kk) hm2 rfl
            simpa [optionsOf] using h3
  obtain ⟨hiff, hdrop, htext, hyes⟩ :=
    renderFacts (processTurn norm save lookupP st m).resp.questionType
      (processTurn norm save lookupP st m).resp.options hshape3
  refine ⟨?_, ?_, hiff, hdrop, htext, hyes⟩
  · rcases hshape3 with h | h | ⟨h, _⟩
    · exact Or.inl h
    · exact Or.inr (Or.inl h)
    · exact Or.inr (Or.inr h)
  · intro hopt
    rcases hshape3 with h | h | ⟨_, hne⟩
    · rw [h] at hopt
      exact absurd hopt (by decide)
    · rw [h] at hopt
      exact absurd hopt (by decide)
    · exact hne

/-- Witness for C2 at the dropdown question Type of Incident (index 3). -/
theorem fnol_C2_witness :
    ((processTurn stubNorm (fun _ => true) (fun _ => none)
        ⟨Mode.intake 3, []⟩ "x").resp.questionType = "text" ∨
      (processTurn stubNorm (fun _ => true) (fun _ => none)
        ⟨Mode.intake 3, []⟩ "x").resp.questionType = "yesno" ∨
      (processTurn stubNorm (fun _ => true) (fun _ => none)
        ⟨Mode.intake 3, []⟩ "x").resp.questionType = "options") ∧
    ((processTurn stubNorm (fun _ => true) (fun _ => none)
        ⟨Mode.intake 3, []⟩ "x").resp.questionType = "options" →
      (renderInput (processTurn stubNorm (fun _ => true) (fun _ => none)
          ⟨Mode.intake 3, []⟩ "x").resp.questionType
        (processTurn stubNorm (fun _ => true) (fun _ => none)
          ⟨Mode.intake 3, []⟩ "x").resp.options).dropdownOpts =
        some (processTurn stubNorm (fun _ => true) (fun _ => none)
          ⟨Mode.intake 3, []⟩ "x").resp.options) :=
  ⟨(fnol_C2 stubNorm (fun _ => true) (fun _ => none)
      ⟨Mode.intake 3, []⟩ "x").1,
   (fnol_C2 stubNorm (fun _ => true) (fun _ => none)
      ⟨Mode.intake 3, []⟩ "x").2.2.2.1⟩

/-- The Bool deduplication condition agrees with the property that the last
transcript message is a bot message with identical text. -/
theorem lastBotSame_iff (msgs : List ChatMsg) (t : String) :
    lastBotSame msgs t = true ↔
      ∃ l, msgs.getLast? = some l ∧ l.sender = Sender.botMsg ∧ l.text = t := by
  unfold lastBotSame
  cases hg : msgs.getLast? with
  | none => simp
  | some l => simp [Bool.and_eq_true, beq_iff_eq]

/-- Appending one message preserves the no-consecutive-duplicate-bot
invariant when the new message does not duplicate the last one. -/
theorem noDup_append_ok : ∀ (l : List ChatMsg) (c : ChatMsg),
    noDupBot l = true →
    (∀ x, l.getLast? = some x →
      (x.sender == Sender.botMsg && c.sender == Sender.botMsg &&
        x.text == c.text) = false) →
    noDupBot (l ++ [c]) = true := by
  intro l
  induction l with
  | nil => intro c _ _; rfl
  | cons a tl ih =>
      intro c hnd hlast
      cases tl with
      | nil =>
          have hc := hlast a rfl
          simp only [List.cons_append, List.nil_append, noDupBot]
          rw [show (a.sender == Sender.botMsg && c.sender == Sender.botMsg &&
            a.text == c.text) = false from hc]
          rfl
      | cons b rest =>
          simp only [noDupBot, Bool.and_eq_true] at hnd
          obtain ⟨hpair, hnd2⟩ := hnd
          have hlast2 : ∀ x, (b :: rest).getLast? = some x →
              (x.sender == Sender.botMsg && c.sender == Sender.botMsg &&
                x.text == c.text) = false := by
            intro x hx
            apply hlast
            rw [List.getLast?_cons_cons]
            exact hx
          have hrec := ih c hnd2 hlast2
          simp only [List.cons_append, noDupBot, Bool.and_eq_true]
          constructor
          · exact hpair
          · exact hrec

/-- Claim C8: appending a bot response to the transcript is suppressed
exactly when the last transcript message is a bot message with identical
text, and it is appended whenever it differs from the last message or
follows a user message; consequently, after any sendMessage turn starting
from a transcript without two consecutive equal bot messages (initial turns
run on a cleared transcript), the transcript still has no two consecutive
bot messages with equal text. -/
theorem fnol_C8 :
    (∀ (msgs : List ChatMsg) (t : String),
      appendBotDedup msgs t = msgs ↔
        ∃ l, msgs.getLast? = some l ∧ l.sender = Sender.botMsg ∧ l.text = t) ∧
    (∀ (msgs : List ChatMsg) (t : String),
      ¬(∃ l, msgs.getLast? = some l ∧ l.sender = Sender.botMsg ∧ l.text = t) →
      appendBotDedup msgs t = msgs ++ [⟨Sender.botMsg, t⟩]) ∧
    (∀ (msgs : List ChatMsg) (message : String) (isInit : Bool)
        (result : Except String ChatResponse),
      noDupBot msgs = true → (isInit = true → msgs = []) →
      noDupBot (clientTurn msgs message isInit result) = true) := by
  refine ⟨?_, ?_, ?_⟩
  · intro msgs t
    cases hc : lastBotSame msgs t with
    | true =>
        constructor
        · intro _
          exact (lastBotSame_iff msgs t).mp hc
        · intro _
          simp [appendBotDedup, hc]
    | false =>
        constructor
        · intro heq
          exfalso
          have h2 : appendBotDedup msgs t = msgs ++ [⟨Sender.botMsg, t⟩] := by
            simp [appendBotDedup, hc]
          rw [h2] at heq
          have h3 := congrArg List.length heq
          simp at h3
        · intro hex
          have h4 := (lastBotSame_iff msgs t).mpr hex
          rw [hc] at h4
          exact Bool.noConfusion h4
  · intro msgs t hnex
    cases hc : lastBotSame msgs t with
    | true => exact absurd ((lastBotSame_iff msgs t).mp hc) hnex
    | false => simp [appendBotDedup, hc]
  · intro msgs message isInit result hnd hinit
    unfold clientTurn
    cases hg : (!isInit && isBlank message) with
    | true =>
        simp only [if_pos rfl]
        exact hnd
    | false =>
        rw [if_neg (show ¬false = true from fun h => Bool.noConfusion h)]
        cases hInit : isInit with
        | true =>
            have hempty := hinit hInit
            subst hempty
            cases result with
            | ok r =>
                show noDupBot (appendBotDedup [] r.response) = true
                rfl
            | error e =>
                rfl
        | false =>
            have hm1 : noDupBot (msgs ++ [⟨Sender.userMsg, message⟩]) = true := by
              apply noDup_append_ok msgs _ hnd
              intro x _
              simp
            cases result with
            | ok r =>
                show noDupBot (appendBotDedup
                  (msgs ++ [⟨Sender.userMsg, message⟩]) r.response) = true
                cases hc : lastBotSame (msgs ++ [⟨Sender.userMsg, message⟩])
                    r.response with
                | true =>
                    simp only [appendBotDedup, hc, if_pos rfl]
                    exact hm1
                | false =>
                    have h2 : appendBotDedup
                        (msgs ++ [⟨Sender.userMsg, message⟩]) r.response =
                        (msgs ++ [⟨Sender.userMsg, message⟩]) ++
                          [⟨Sender.botMsg, r.response⟩] := by
                      simp [appendBotDedup, hc]
                    rw [h2]
                    apply noDup_append_ok _ _ hm1
                    intro x hx
                    have h3 : lastBotSame (msgs ++ [⟨Sender.userMsg, message⟩])
                        r.response = (x.sender == Sender.botMsg &&
                          x.text == r.response) := by
                      unfold lastBotSame
                      rw [hx]
                    rw [hc] at h3
                    have h4 := h3.symm
                    simp only [Bool.and_eq_false_iff] at h4 ⊢
                    rcases h4 with h4 | h4
                    · exact Or.inl (Or.inl h4)
                    · exact Or.inr h4
            | error e =>
                show noDupBot ((msgs ++ [⟨Sender.userMsg, message⟩]) ++
                  [⟨Sender.botMsg, e⟩]) = true
                apply noDup_append_ok _ _ hm1
                intro x hx
                rw [List.getLast?_concat] at hx
                injection hx with hx
                subst hx
                rfl

/-- Witness for C8: appending onto a transcript ending in a user message is
never suppressed, and one error turn on an empty transcript keeps the
invariant. -/
theorem fnol_C8_witness :
    (¬(∃ l, ([] : List ChatMsg).getLast? = some l ∧
        l.sender = Sender.botMsg ∧ l.text = "hi") ∧
      appendBotDedup [] "hi" = [⟨Sender.botMsg, "hi"⟩]) ∧
    (noDupBot [] = true ∧ (false = true → ([] : List ChatMsg) = []) ∧
      noDupBot (clientTurn [] "hello" false (Except.error "boom")) = true) :=
  ⟨⟨fun h => Option.noConfusion h.choose_spec.1,
    fnol_C8.2.1 [] "hi" (fun h => Option.noConfusion h.choose_spec.1)⟩,
   ⟨rfl, fun _ => rfl,
    fnol_C8.2.2 [] "hello" false (Except.error "boom") rfl
      (fun h => Bool.noConfusion h)⟩⟩

end FNOL
